import Mathlib

/-!
Verification development for the NIME Proceedings Analyzer.

This file gives a shallow embedding of the two core components of the
repository and proves properties of them:

* `request_scholar` in `pa_request.py` — identity resolution against the
  Semantic Scholar API with a persistent JSON cache
  (`./cache/json/scholar_cache.json`);
* `generate_cit_ref_auth_df` in `analysis_citations.py` — folding the
  citing/referenced entries of every resolved publication into three
  deduplicated tables with per-year counters.

Python dictionaries are modelled as association lists preserving insertion
order, JSON payloads as structures whose `Option` fields model key
presence/absence, and the network as pure functions from query strings /
paper ids to responses.  Exceptions that escape the Python function
(`KeyError`, `orjson.JSONDecodeError`) are modelled as explicit exit states.
-/

namespace NimePA

/-! ## String helpers

`unidecode.unidecode` transliterates Unicode to ASCII and is the identity on
ASCII strings.  All string data in this development is ASCII, so it is
modelled as the identity function. -/

def unidecodeStr (s : String) : String := s

/-- `re.compile(r'[^a-zA-Z0-9 ]').sub('', s)`: keep only ASCII alphanumerics
and spaces (the `regextitle` pattern of `pa_request.py`). -/
def regextitleSub (s : String) : String :=
  ⟨s.data.filter (fun c => c.isAlphanum || c = ' ')⟩

/-- `re.compile(r'[^a-zA-Z- ]').sub('', s)`: keep only ASCII letters, hyphens
and spaces (the `regexname` pattern of `pa_request.py`). -/
def regexnameSub (s : String) : String :=
  ⟨s.data.filter (fun c => c.isAlpha || c = '-' || c = ' ')⟩

/-- Python `str.split(sep)` for a one-character separator, as a structural
recursion over the character list (all separators in the source are single
characters). -/
def splitChars (sep : Char) : List Char → List Char → List String
  | [], acc => [⟨acc.reverse⟩]
  | c :: cs, acc =>
    if c = sep then ⟨acc.reverse⟩ :: splitChars sep cs []
    else splitChars sep cs (c :: acc)

def pySplitOn (s : String) (sep : Char) : List String :=
  splitChars sep s.data []

/-- Python `str.lower()` (ASCII; the normalized strings here are ASCII). -/
def lowerChar (c : Char) : Char :=
  if 'A' ≤ c ∧ c ≤ 'Z' then Char.ofNat (c.toNat + 32) else c

def strLower (s : String) : String :=
  ⟨s.data.map lowerChar⟩

/-- Python `str.split()` (no argument): split on whitespace, dropping empty
pieces.  The strings handled here use single spaces as their only
whitespace. -/
def pySplit (s : String) : List String :=
  (pySplitOn s ' ').filter (fun w => w ≠ "")

/-- `p` occurs as a (contiguous) prefix of `s`, on character lists. -/
def charsHavePref : List Char → List Char → Bool
  | [], _ => true
  | _ :: _, [] => false
  | a :: p, b :: s => (a = b : Bool) && charsHavePref p s

/-- Python `s.find(p) != -1`: `p` occurs as a contiguous substring of `s`. -/
def strContainsSub (s p : String) : Bool :=
  s.data.tails.any (fun t => charsHavePref p.data t)

/-- `list(dict.fromkeys(l))`: deduplicate keeping the first occurrence of
each element, preserving order. -/
def pyDedup {α : Type} [DecidableEq α] : List α → List α
  | [] => []
  | a :: t => a :: (pyDedup t).filter (fun b => b ≠ a)

/-- `itertools.product(A, B, C)`: Cartesian product in lexicographic
(outermost-first) order. -/
def pyProduct {α β γ : Type} (A : List α) (B : List β) (C : List γ) :
    List (α × β × γ) :=
  A.flatMap (fun a => B.flatMap (fun b => C.map (fun c => (a, b, c))))

/-- Python `list.remove(x)` (first occurrence only); the source calls it on a
list guaranteed by the pipeline to contain the element. -/
def pyRemoveFirst {α : Type} [DecidableEq α] (x : α) : List α → List α
  | [] => []
  | a :: t => if a = x then t else a :: pyRemoveFirst x t

/-! ## Search-endpoint data model (`scholar_api_paper_search`) -/

/-- One author record of a search result (`query_result['data'][0]['authors']`):
`name` is always present, `authorId` may be JSON `null`. -/
structure SAuthor where
  name : String
  authorId : Option String
deriving DecidableEq

/-- The first element `query_result['data'][0]` of a search response.
`counts` models the `citationCount` / `influentialCitationCount` pair; the
endpoint returns the two keys together, and the source only ever tests
`'citationCount' in ...` for presence. -/
structure SearchDatum where
  counts : Option (Nat × Nat)
  paperId : String
  title : String
  authors : List SAuthor
deriving DecidableEq

/-- A search response as examined by lines 158–164 of `pa_request.py`:
`failed` is the `{'results': {}}` substitute installed when the request
raises, `withError` a response carrying an `'error'` key, `empty` a response
without a (nonempty) `'data'` list, and `found d` a response whose
`data[0]` is `d`. -/
inductive QueryResponse where
  | failed
  | withError
  | empty
  | found (d : SearchDatum)
deriving DecidableEq

/-! ## Acceptance test (lines 158–164 of `pa_request.py`) -/

/-- Normalization of the joined external author names:
`regexname.sub('', unidecode.unidecode(' '.join(names))).lower()`. -/
def resultAuthorNorm (authors : List SAuthor) : String :=
  strLower (regexnameSub (unidecodeStr (String.intercalate " " (authors.map (·.name)))))

/-- Normalization of the local first author's surname:
`regexname.sub('', author_last_list[0].lower().split(' ')[-1])`. -/
def queryAuthorNorm (authorLast : List String) : String :=
  regexnameSub ((pySplitOn (strLower (authorLast.headD "")) ' ').getLastD "")

/-- The inner acceptance test of `request_scholar` for a response carrying a
nonempty `data` list: `('citationCount' in data[0] or last_iter)` and
`len(data[0]['authors']) <= len(author_last_list) + 1`, then the normalized
surname must occur in the normalized joined author names. -/
def acceptedDatum (authorLast : List String) (lastIter : Bool) (d : SearchDatum) : Bool :=
  if (d.counts.isSome || lastIter)
      && decide (d.authors.length ≤ authorLast.length + 1) then
    strContainsSub (resultAuthorNorm d.authors) (queryAuthorNorm authorLast)
  else
    false

/-- The acceptance condition exactly as claim C1 states it: the number of
external authors is at most the local author count plus one, and the
normalized surname of the local first author occurs as a substring of the
normalized space-joined external author names (normalization as performed by
the code). -/
def specAcceptC1 (authorLast : List String) (d : SearchDatum) : Bool :=
  decide (d.authors.length ≤ authorLast.length + 1)
    && strContainsSub (resultAuthorNorm d.authors) (queryAuthorNorm authorLast)

/-! ## Citing/referenced entry records

An element of a `citations` / `references` list of a lookup payload.  The
aggregator copies the whole entry into a table row and never touches any
field other than `paperId`, `authors` and the counters it adds, so the
remaining payload fields (`title`, `year`, `s2FieldsOfStudy`, `journal`,
`publicationVenue`, ...) are carried as `title`, `year` and the opaque
`rest`. -/

structure RefAuthor where
  authorId : Option String
  name : String
deriving DecidableEq

structure RefEntry where
  paperId : Option String
  title : String
  year : Option Int
  rest : String
  authors : List RefAuthor
deriving DecidableEq

/-! ## Lookup-endpoint data model (`scholar_api_paper_lookup`)

Each `Option` field models presence of the corresponding key in the JSON
payload; `message` models presence of a `'message'` key (the endpoint's
error indicator).  The `embedding` and `tldr` values are opaque here. -/

structure LookupPayload where
  message : Bool := false
  embedding : Option String := none
  tldr : Option String := none
  s2FieldsOfStudy : Option (List String) := none
  publicationVenue : Option String := none
  publicationTypes : Option (List String) := none
  citations : Option (List RefEntry) := none
  references : Option (List RefEntry) := none
deriving DecidableEq

/-! ## The Semantic Scholar cache

`scholar_cache` is a single JSON object holding both kinds of entry: a
composite query key mapping to a stored search response (or to the string
`'N/A'`, which older cache files may contain), and a paper id mapping to a
stored lookup payload.  It is modelled as an insertion-ordered association
list, like a Python `dict`. -/

inductive CacheVal where
  | na
  | queryRes (d : SearchDatum)
  | lookupRes (p : LookupPayload)
deriving DecidableEq

def Cache : Type := List (String × CacheVal)

instance : DecidableEq Cache := inferInstanceAs (DecidableEq (List (String × CacheVal)))

/-- Python `d[k]` as a total lookup (first binding wins; `setKey` keeps keys
unique anyway). -/
def getKey : Cache → String → Option CacheVal
  | [], _ => none
  | (k', v) :: t, k => if k' = k then some v else getKey t k

/-- Python `d[k] = v`: overwrite in place if the key exists, else append,
preserving insertion order. -/
def setKey : Cache → String → CacheVal → Cache
  | [], k, v => [(k, v)]
  | (k', v') :: t, k, v => if k' = k then (k, v) :: t else (k', v') :: setKey t k v

/-- The on-disk state of `./cache/json/scholar_cache.json`: missing file,
present but not valid JSON, or present with a decoded cache object. -/
inductive CacheFile where
  | absent
  | corrupt
  | present (c : Cache)
deriving DecidableEq

/-! ## The publication record (`pub`)

`PubIn` holds the fields `request_scholar` reads from the bibtex-derived
record; `PubOut` the `scholar *` fields it installs.  `'N/A'` defaults of
scalar fields are `none`; the `scholar authors id` entries distinguish the
`'N/A'` placeholder, a JSON `null` author id, and a real id. -/

structure PubIn where
  title : String
  authorNames : List (String × String)
  year : Nat
  age : Nat
deriving DecidableEq

inductive IdVal where
  | na
  | nullId
  | idStr (s : String)
deriving DecidableEq

def idValOf : Option String → IdVal
  | none => .nullId
  | some s => .idStr s

structure PubOut where
  query : String
  citationCount : Option Nat
  influentialCitationCount : Option Nat
  referenceCount : Option Nat
  paperId : Option String
  scholarTitle : Option String
  authorsId : List IdVal
  embedding : Option String
  tldr : Option String
  fieldOfStudy : List String
  publicationVenue : Option String
  publicationType : List String
  citations : List RefEntry
  references : List RefEntry
  valid : Bool
  age : Nat
  yearlyCitations : Option (Nat × Nat)
deriving DecidableEq

/-- The defaults installed by lines 98–116 of `pa_request.py` (the later
duplicate assignments win: `scholar publication venue` ends up `[]`,
modelled as `none`).  `scholar yearly citations` is assigned only at the end
of the function; the pair `(citation count, adjusted age)` stands for the
float `count / age`. -/
def initPub (pub : PubIn) : PubOut where
  query := ""
  citationCount := none
  influentialCitationCount := none
  referenceCount := none
  paperId := none
  scholarTitle := none
  authorsId := List.replicate pub.authorNames.length .na
  embedding := none
  tldr := none
  fieldOfStudy := []
  publicationVenue := none
  publicationType := []
  citations := []
  references := []
  valid := false
  age := pub.age
  yearlyCitations := none

/-! ## The resolver (`request_scholar`) -/

structure Args where
  nime : Bool
deriving DecidableEq

/-- The external endpoints, as pure functions.  A lookup that raises out of
`requests` is not modelled (the source does not guard the lookup call); an
endpoint-side lookup error is a payload with `message := true`. -/
structure ScholarEnv where
  search : String → QueryResponse
  lookup : String → LookupPayload

/-- `author_last_list`: for each `(first, last)` name pair, `last.split('-')[-1]`. -/
def authorLastRaw (pub : PubIn) : List String :=
  pub.authorNames.map (fun p => ((pySplitOn p.2 '-').getLastD ""))

/-- Replace the head of a list (Python `l[0] = x`; the source only does this
on a nonempty list). -/
def setHead {α : Type} (x : α) : List α → List α
  | [] => []
  | _ :: t => x :: t

/-- `author_last_list` after the `args.nime` correction for the paper titled
`'Now'` (lines 94–96). -/
def authorLastOf (pub : PubIn) (args : Args) : List String :=
  let al := authorLastRaw pub
  if args.nime ∧ unidecodeStr pub.title = "Now" then setHead "GarthPaine" al else al

/-- `query_title`: raw title, punctuation-stripped title, title with
single-character words removed; deduplicated preserving order. -/
def queryTitleOf (pub : PubIn) : List String :=
  let title := unidecodeStr pub.title
  pyDedup [title, regextitleSub title,
    String.intercalate " " ((pySplit title).filter (fun w => 1 < w.length))]

/-- `query_name`: all surnames joined, first surname, empty — collapsing to
first surname, empty for a single author. -/
def queryNameOf (pub : PubIn) (args : Args) : List String :=
  let al := authorLastOf pub args
  if 1 < al.length then [String.intercalate " " al, al.headD "", ""]
  else [al.headD "", ""]

/-- `query_year = ['', pub['year']]`. -/
def queryYearOf (pub : PubIn) : List String :=
  ["", toString pub.year]

/-- `queries = list(itertools.product(query_title, query_name, query_year))`. -/
def candidatesOf (pub : PubIn) (args : Args) : List (String × String × String) :=
  pyProduct (queryTitleOf pub) (queryNameOf pub args) (queryYearOf pub)

/-- `scholar_query = f'{temp_title} {temp_author} {temp_year}'`. -/
def renderCand (q : String × String × String) : String :=
  q.1 ++ " " ++ q.2.1 ++ " " ++ q.2.2

/-- `full_query = f"{title} {' '.join(author_last_list)} {pub['year']}"`. -/
def fullQueryOf (pub : PubIn) (args : Args) : String :=
  unidecodeStr pub.title ++ " " ++ String.intercalate " " (authorLastOf pub args)
    ++ " " ++ toString pub.year

/-- The candidate loop of lines 138–187: try each candidate in order; stop at
the first accepted search result.  Returns the queries actually sent and the
accepted `data[0]`, if any.  `last_iter` holds exactly on the final
candidate. -/
def tryQueries (env : ScholarEnv) (authorLast : List String) :
    List (String × String × String) → List String × Option SearchDatum
  | [] => ([], none)
  | q :: rest =>
    let s := renderCand q
    match env.search s with
    | .found d =>
      if acceptedDatum authorLast rest.isEmpty d then ([s], some d)
      else
        let r := tryQueries env authorLast rest
        (s :: r.1, r.2)
    | _ =>
      let r := tryQueries env authorLast rest
      (s :: r.1, r.2)

/-- Lines 166–168: if the accepted result was never cited, install zero
citation counts before it is stored and read. -/
def patchDatum (d : SearchDatum) : SearchDatum :=
  { d with counts := some (d.counts.getD (0, 0)) }

/-- Lines 170–174 / 198–202: install the identity fields from a (patched)
search result. -/
def setPubFromDatum (pub : PubOut) (cc icc : Nat) (d : SearchDatum) : PubOut :=
  { pub with
    citationCount := some cc
    influentialCitationCount := some icc
    paperId := some d.paperId
    scholarTitle := some d.title
    authorsId := d.authors.map (fun a => idValOf a.authorId) }

/-- The common consumption block, lines 224–241.  Note the source guards the
`publicationVenue` assignment with `'publicationTypes' in lookup_result` and
then reads `lookup_result['publicationVenue']` unconditionally, so a payload
carrying `publicationTypes` but no `publicationVenue` raises a `KeyError`
(the `.error` case). -/
def consumeLookup (p : LookupPayload) (pub : PubOut) : Except Unit PubOut :=
  let pub := match p.embedding with
    | some e => { pub with embedding := some e }
    | none => pub
  let pub := match p.tldr with
    | some t => { pub with tldr := some t }
    | none => pub
  let pub := match p.s2FieldsOfStudy with
    | some l => { pub with fieldOfStudy := l }
    | none => pub
  match p.publicationTypes with
  | some types =>
    match p.publicationVenue with
    | none => .error ()
    | some v =>
      let pub := { pub with publicationVenue := some v, publicationType := types }
      .ok (consumeCitRefs p pub)
  | none => .ok (consumeCitRefs p pub)
where
  /-- Lines 235–241: citations, references, reference count, validity flag. -/
  consumeCitRefs (p : LookupPayload) (pub : PubOut) : PubOut :=
    let pub := match p.citations with
      | some cs => { pub with citations := cs }
      | none => pub
    match p.references with
    | some rs =>
      { pub with references := rs, referenceCount := some rs.length,
                 valid := decide (0 < rs.length) }
    | none => pub

/-- The cache-hit consumption of lines 203–213 (`embedding`, `tldr`,
`citations`, `references` only; never raises). -/
def consumeCached (p : LookupPayload) (pub : PubOut) : PubOut :=
  let pub := match p.embedding with
    | some e => { pub with embedding := some e }
    | none => pub
  let pub := match p.tldr with
    | some t => { pub with tldr := some t }
    | none => pub
  let pub := match p.citations with
    | some cs => { pub with citations := cs }
    | none => pub
  match p.references with
  | some rs =>
    { pub with references := rs, referenceCount := some rs.length,
               valid := decide (0 < rs.length) }
  | none => pub

/-- Lines 243–248: average citations per year of age; `pub['age']` itself is
bumped to 1 when zero. -/
def applyYearly (pub : PubOut) : PubOut :=
  match pub.citationCount with
  | some n =>
    let age := if pub.age = 0 then 1 else pub.age
    { pub with age := age, yearlyCitations := some (n, age) }
  | none => pub

/-- How one call of `request_scholar` ends: normally, with an uncaught
`KeyError`, with an uncaught `UnboundLocalError` (`lookup_result` is only
initialized inside the cache-miss branch, line 134, so a cache hit on the
`'N/A'` sentinel reaches `if lookup_result:` at line 224 with the variable
unbound), or with an uncaught `orjson.JSONDecodeError` while loading the
cache. -/
inductive RunExit where
  | ok (pub : PubOut) (cache : Cache)
  | keyError
  | nameError
  | jsonError
deriving DecidableEq

structure RunTrace where
  searchCalls : List String
  lookupCalls : List String
  fileAfter : CacheFile
  exit : RunExit
deriving DecidableEq

/-- Final part of both paths: the `if lookup_result:` consumption block and
the yearly-citation computation.  A cached value that is not a lookup payload
(the `'N/A'` string or a stored search response) has none of the probed keys,
so the block is a no-op on it. -/
def finishRun (searchCalls lookupCalls : List String) (fileAfter : CacheFile)
    (c : Cache) (pub : PubOut) (lr : Option CacheVal) : RunTrace :=
  match lr with
  | some (.lookupRes p) =>
    match consumeLookup p pub with
    | .error _ => ⟨searchCalls, lookupCalls, fileAfter, .keyError⟩
    | .ok pub' => ⟨searchCalls, lookupCalls, fileAfter, .ok (applyYearly pub') c⟩
  | _ => ⟨searchCalls, lookupCalls, fileAfter, .ok (applyYearly pub) c⟩

/-- The cache-miss path (lines 131–194): run the candidate loop; on
acceptance store the patched response under the original composite key and
fetch details for the paper id if they are not cached (persisting them only
when the payload has no `'message'` key); in every case rewrite the cache
file before falling through to the consumption block.  The commented-out
line 191 means exhaustion stores nothing. -/
def runMiss (env : ScholarEnv) (c : Cache) (authorLast : List String)
    (queries : List (String × String × String)) (fq : String) (pub : PubOut) :
    RunTrace :=
  let tried := tryQueries env authorLast queries
  match tried.2 with
  | none =>
    finishRun tried.1 [] (.present c) c pub none
  | some d =>
    let d' := patchDatum d
    let pub := setPubFromDatum pub (d'.counts.getD (0, 0)).1 (d'.counts.getD (0, 0)).2 d
    let c := setKey c fq (.queryRes d')
    match getKey c d.paperId with
    | none =>
      let payload := env.lookup d.paperId
      let c := if payload.message then c else setKey c d.paperId (.lookupRes payload)
      finishRun tried.1 [d.paperId] (.present c) c pub (some (.lookupRes payload))
    | some w =>
      finishRun tried.1 [] (.present c) c pub (some w)

/-- The cache-hit path (lines 196–222).  Reading the stored response raises a
`KeyError` if it is not a search response with a `citationCount`; line 203
then probes `scholar_cache[pub['scholar paper id']]` unconditionally, so a
hit whose paper id has no detail entry also raises a `KeyError` — before the
lookup guarded by line 215 could ever run.  A hit on the `'N/A'` sentinel
skips to line 222 and then raises `UnboundLocalError` at line 224
(`lookup_result` is only bound in the cache-miss branch).  No cache file
write happens on this path. -/
def runHit (file0 : CacheFile) (c : Cache) (pub : PubOut) (v : CacheVal) : RunTrace :=
  match v with
  | .na => ⟨[], [], file0, .nameError⟩
  | .lookupRes _ => ⟨[], [], file0, .keyError⟩
  | .queryRes d =>
    match d.counts with
    | none => ⟨[], [], file0, .keyError⟩
    | some (cc, icc) =>
      let pub := setPubFromDatum pub cc icc d
      match getKey c d.paperId with
      | none => ⟨[], [], file0, .keyError⟩
      | some w =>
        let pub := match w with
          | .lookupRes p => consumeCached p pub
          | _ => pub
        finishRun [] [] file0 c pub (some w)

/-- The body of `request_scholar` after the cache has been loaded. -/
def runLoaded (env : ScholarEnv) (file0 : CacheFile) (c : Cache)
    (pubIn : PubIn) (args : Args) : RunTrace :=
  let authorLast := authorLastOf pubIn args
  let fq := fullQueryOf pubIn args
  let pub := { initPub pubIn with query := fq }
  match getKey c fq with
  | none => runMiss env c authorLast (candidatesOf pubIn args) fq pub
  | some v => runHit file0 c pub v

/-- `request_scholar(pub, args)`: lines 76–81 load the cache, catching only
`FileNotFoundError` — an unreadable (corrupt) file raises out of the
function. -/
def request_scholar (env : ScholarEnv) (file : CacheFile) (pubIn : PubIn)
    (args : Args) : RunTrace :=
  match file with
  | .corrupt => ⟨[], [], .corrupt, .jsonError⟩
  | .absent => runLoaded env .absent [] pubIn args
  | .present c => runLoaded env (.present c) c pubIn args

/-! ## The citation/reference/author aggregator (`generate_cit_ref_auth_df`)

The three pandas DataFrames are modelled as lists of rows in insertion
order.  Row lookup (`df[df['paperId'] == id].index.to_list()[0]`) takes the
first matching row, and `df.append` adds at the end.  Per-year counters
(`years_empty_dict.copy()`) are association lists over the corpus's sorted
unique years. -/

/-- A row of `bib_df` as read by `generate_cit_ref_auth_df`.  Unresolved
publications carry empty `scholarCitations` / `scholarReferences` lists, so
their `scholarCitationCount` (the `'N/A'` string in the source) is never
read; it is modelled as a number. -/
structure BibRow where
  year : Nat
  scholarPaperId : Option String
  scholarAuthorsId : List IdVal
  scholarCitationCount : Nat
  scholarCitations : List RefEntry
  scholarReferences : List RefEntry
deriving DecidableEq

/-- Insert into a sorted-without-duplicates list of years. -/
def insertYear (y : Nat) : List Nat → List Nat
  | [] => [y]
  | a :: t =>
    if y < a then y :: a :: t
    else if y = a then a :: t
    else a :: insertYear y t

/-- `np.sort(bib_df['year'].unique())`. -/
def yearsOf (bib : List BibRow) : List Nat :=
  (bib.map (·.year)).foldl (fun acc y => insertYear y acc) []

/-- A per-year counter (`dict.fromkeys(years, 0)` and its updates). -/
def YearCounter : Type := List (Nat × Nat)

instance : DecidableEq YearCounter := inferInstanceAs (DecidableEq (List (Nat × Nat)))

def zeroCounter (ys : List Nat) : YearCounter := ys.map (fun y => (y, 0))

/-- `m[y] = m[y] + 1` on a counter (in the source the year is always one of
the counter's keys; a missing key would raise in Python and is a no-op
here). -/
def bumpYear (m : YearCounter) (y : Nat) : YearCounter :=
  m.map (fun p => if p.1 = y then (p.1, p.2 + 1) else p)

def counterKeys (m : YearCounter) : List Nat := m.map (·.1)

/-- Read a counter value, 0 for a missing key. -/
def counterVal (m : YearCounter) (y : Nat) : Nat :=
  ((m.find? (fun p => p.1 = y)).map (·.2)).getD 0

/-- Sum of all per-year values of a counter. -/
def counterSum (m : YearCounter) : Nat := (m.map (·.2)).sum

/-- A row of `cit_df`: the copied citing entry plus `count`, `count_year`
and `in NIME`. -/
structure CitRow where
  entry : RefEntry
  count : Nat
  countYear : YearCounter
  inNime : Bool
deriving DecidableEq

/-- A row of `ref_df`: additionally `count x cit`, the impact-weighted
counter. -/
structure RefRow where
  entry : RefEntry
  count : Nat
  countXcit : Nat
  countYear : YearCounter
  inNime : Bool
deriving DecidableEq

/-- A row of `auth_df`: the copied author record plus cited/referenced
counters and `in NIME`. -/
structure AuthRow where
  author : RefAuthor
  citCount : Nat
  citCountYear : YearCounter
  refCount : Nat
  refCountYear : YearCounter
  inNime : Bool
deriving DecidableEq

structure Tables where
  cit : List CitRow
  ref : List RefRow
  auth : List AuthRow
deriving DecidableEq

def initTables : Tables := ⟨[], [], []⟩

/-- The corpus-level data computed before the fold: the zero-filled year
counter template, the deduplicated local author-id list with its `'N/A'`
entry removed (lines 142–145), and the `scholar paper id` column used for
the `in NIME` membership tests. -/
structure AggCtx where
  years0 : YearCounter
  nimeAuthors : List IdVal
  bibPaperIds : List (Option String)
deriving DecidableEq

def ctxOf (bib : List BibRow) : AggCtx where
  years0 := zeroCounter (yearsOf bib)
  nimeAuthors := pyRemoveFirst .na (pyDedup (bib.flatMap (·.scholarAuthorsId)))
  bibPaperIds := bib.map (·.scholarPaperId)

/-- Replace the first element satisfying `p` (the pandas
`df.at[first matching index, ...]` updates). -/
def updateFirst {α : Type} (p : α → Bool) (f : α → α) : List α → List α
  | [] => []
  | a :: t => if p a then f a :: t else a :: updateFirst p f t

/-- Update the first row matching `p` if one exists, else append `new` —
the shape of every dedup-update in the fold. -/
def upsert {α : Type} (p : α → Bool) (f : α → α) (new : α) (t : List α) : List α :=
  if (t.find? p).isSome then updateFirst p f t else t ++ [new]

/-- Lines 153–169: one author of a citing entry.  Null author ids are
skipped; an existing row gets `cit_count` and its year bucket bumped; a new
row copies the author record and starts at `cit_count = 1`. -/
def stepAuthCit (ctx : AggCtx) (y : Nat) (t : List AuthRow) (a : RefAuthor) :
    List AuthRow :=
  match a.authorId with
  | none => t
  | some aid =>
    upsert (fun r => decide (r.author.authorId = some aid))
      (fun r => { r with citCount := r.citCount + 1,
                         citCountYear := bumpYear r.citCountYear y })
      { author := a
        citCount := 1
        citCountYear := bumpYear ctx.years0 y
        refCount := 0
        refCountYear := ctx.years0
        inNime := ctx.nimeAuthors.contains (.idStr aid) }
      t

/-- Lines 185–201: one author of a referenced entry (the `ref_count`
mirror). -/
def stepAuthRef (ctx : AggCtx) (y : Nat) (t : List AuthRow) (a : RefAuthor) :
    List AuthRow :=
  match a.authorId with
  | none => t
  | some aid =>
    upsert (fun r => decide (r.author.authorId = some aid))
      (fun r => { r with refCount := r.refCount + 1,
                         refCountYear := bumpYear r.refCountYear y })
      { author := a
        citCount := 0
        citCountYear := ctx.years0
        refCount := 1
        refCountYear := bumpYear ctx.years0 y
        inNime := ctx.nimeAuthors.contains (.idStr aid) }
      t

/-- Lines 170–182: the citing paper itself.  Entries with a null `paperId`
are skipped (after their authors were processed). -/
def stepCitPaper (ctx : AggCtx) (y : Nat) (t : List CitRow) (e : RefEntry) :
    List CitRow :=
  match e.paperId with
  | none => t
  | some pid =>
    upsert (fun r => decide (r.entry.paperId = some pid))
      (fun r => { r with count := r.count + 1,
                         countYear := bumpYear r.countYear y })
      { entry := e
        count := 1
        countYear := bumpYear ctx.years0 y
        inNime := ctx.bibPaperIds.contains (some pid) }
      t

/-- Lines 202–216: the referenced paper, with the impact-weighted
`count x cit` accumulating the citing local paper's own citation count
`cc`. -/
def stepRefPaper (ctx : AggCtx) (y : Nat) (cc : Nat) (t : List RefRow)
    (e : RefEntry) : List RefRow :=
  match e.paperId with
  | none => t
  | some pid =>
    upsert (fun r => decide (r.entry.paperId = some pid))
      (fun r => { r with count := r.count + 1,
                         countXcit := r.countXcit + cc,
                         countYear := bumpYear r.countYear y })
      { entry := e
        count := 1
        countXcit := cc
        countYear := bumpYear ctx.years0 y
        inNime := ctx.bibPaperIds.contains (some pid) }
      t

/-- One entry of the fold: a citing or referenced entry `e` of a local
publication of year `y` and citation count `cc`. -/
inductive FoldEntry where
  | cit (y : Nat) (cc : Nat) (e : RefEntry)
  | ref (y : Nat) (cc : Nat) (e : RefEntry)
deriving DecidableEq

def FoldEntry.year : FoldEntry → Nat
  | .cit y _ _ => y
  | .ref y _ _ => y

/-- Process one citing/referenced entry: first its author list, then the
paper row (matching the statement order of the source's inner loops). -/
def stepEntry (ctx : AggCtx) (st : Tables) : FoldEntry → Tables
  | .cit y _ e =>
    { st with auth := e.authors.foldl (stepAuthCit ctx y) st.auth
              cit := stepCitPaper ctx y st.cit e }
  | .ref y cc e =>
    { st with auth := e.authors.foldl (stepAuthRef ctx y) st.auth
              ref := stepRefPaper ctx y cc st.ref e }

/-- The fold entries of one `bib_df` row, in source order: all citing
entries, then all referenced entries. -/
def entriesOfRow (item : BibRow) : List FoldEntry :=
  item.scholarCitations.map (.cit item.year item.scholarCitationCount)
    ++ item.scholarReferences.map (.ref item.year item.scholarCitationCount)

/-- The flattened sequence of fold steps of the whole `for index,item in
bib_df.iterrows()` loop nest. -/
def foldEntries (bib : List BibRow) : List FoldEntry :=
  bib.flatMap entriesOfRow

/-- `generate_cit_ref_auth_df` (the in-memory computation; the pickle
fast-path and the final `to_pickle` calls only persist the result). -/
def generate_cit_ref_auth_df (bib : List BibRow) : Tables :=
  (foldEntries bib).foldl (stepEntry (ctxOf bib)) initTables

/-! ### Table readers -/

def findCitRow (t : List CitRow) (pid : String) : Option CitRow :=
  t.find? (fun r => decide (r.entry.paperId = some pid))

def findRefRow (t : List RefRow) (pid : String) : Option RefRow :=
  t.find? (fun r => decide (r.entry.paperId = some pid))

def findAuthRow (t : List AuthRow) (aid : String) : Option AuthRow :=
  t.find? (fun r => decide (r.author.authorId = some aid))

def citCountOf (t : List CitRow) (pid : String) : Nat :=
  ((findCitRow t pid).map (·.count)).getD 0

def citYearOf (t : List CitRow) (pid : String) (y : Nat) : Nat :=
  ((findCitRow t pid).map (fun r => counterVal r.countYear y)).getD 0

def refCountOf (t : List RefRow) (pid : String) : Nat :=
  ((findRefRow t pid).map (·.count)).getD 0

def refXcitOf (t : List RefRow) (pid : String) : Nat :=
  ((findRefRow t pid).map (·.countXcit)).getD 0

def refYearOf (t : List RefRow) (pid : String) (y : Nat) : Nat :=
  ((findRefRow t pid).map (fun r => counterVal r.countYear y)).getD 0

def authCitCountOf (t : List AuthRow) (aid : String) : Nat :=
  ((findAuthRow t aid).map (·.citCount)).getD 0

def authCitYearOf (t : List AuthRow) (aid : String) (y : Nat) : Nat :=
  ((findAuthRow t aid).map (fun r => counterVal r.citCountYear y)).getD 0

def authRefCountOf (t : List AuthRow) (aid : String) : Nat :=
  ((findAuthRow t aid).map (·.refCount)).getD 0

def authRefYearOf (t : List AuthRow) (aid : String) (y : Nat) : Nat :=
  ((findAuthRow t aid).map (fun r => counterVal r.refCountYear y)).getD 0

/-! ### Observation counts

The multiset-level description of what the fold accumulates: how many times
a given external paper id (resp. author id) is observed across the corpus,
in total, per year, and weighted by the citing paper's citation count. -/

def FoldEntry.citObs (pid : String) : FoldEntry → Nat
  | .cit _ _ e => if e.paperId = some pid then 1 else 0
  | .ref _ _ _ => 0

def FoldEntry.citObsYear (pid : String) (y : Nat) : FoldEntry → Nat
  | .cit y' _ e => if e.paperId = some pid ∧ y' = y then 1 else 0
  | .ref _ _ _ => 0

def FoldEntry.refObs (pid : String) : FoldEntry → Nat
  | .cit _ _ _ => 0
  | .ref _ _ e => if e.paperId = some pid then 1 else 0

def FoldEntry.refObsX (pid : String) : FoldEntry → Nat
  | .cit _ _ _ => 0
  | .ref _ cc e => if e.paperId = some pid then cc else 0

def FoldEntry.refObsYear (pid : String) (y : Nat) : FoldEntry → Nat
  | .cit _ _ _ => 0
  | .ref y' _ e => if e.paperId = some pid ∧ y' = y then 1 else 0

def FoldEntry.authCitObs (aid : String) : FoldEntry → Nat
  | .cit _ _ e => (e.authors.filter (fun a => a.authorId = some aid)).length
  | .ref _ _ _ => 0

def FoldEntry.authCitObsYear (aid : String) (y : Nat) : FoldEntry → Nat
  | .cit y' _ e =>
    if y' = y then (e.authors.filter (fun a => a.authorId = some aid)).length else 0
  | .ref _ _ _ => 0

def FoldEntry.authRefObs (aid : String) : FoldEntry → Nat
  | .cit _ _ _ => 0
  | .ref _ _ e => (e.authors.filter (fun a => a.authorId = some aid)).length

def FoldEntry.authRefObsYear (aid : String) (y : Nat) : FoldEntry → Nat
  | .cit _ _ _ => 0
  | .ref y' _ e =>
    if y' = y then (e.authors.filter (fun a => a.authorId = some aid)).length else 0

/-! ## Specification-side definitions, concrete instances and auxiliary readers -/

/-- The per-row invariant for citing-paper rows: the per-year counts sum to
the total count, and the counter's keys are exactly the corpus years. -/
def rowInvCit (ys : List Nat) (r : CitRow) : Prop :=
  counterSum r.countYear = r.count ∧ counterKeys r.countYear = ys

def rowInvRef (ys : List Nat) (r : RefRow) : Prop :=
  counterSum r.countYear = r.count ∧ counterKeys r.countYear = ys

def rowInvAuth (ys : List Nat) (r : AuthRow) : Prop :=
  counterSum r.citCountYear = r.citCount ∧ counterSum r.refCountYear = r.refCount ∧
    counterKeys r.citCountYear = ys ∧ counterKeys r.refCountYear = ys

def tablesInv (ys : List Nat) (st : Tables) : Prop :=
  (∀ r ∈ st.cit, rowInvCit ys r) ∧ (∀ r ∈ st.ref, rowInvRef ys r) ∧
    (∀ r ∈ st.auth, rowInvAuth ys r)

/-- Facts about a context as built by `ctxOf` that the step lemmas need. -/
structure CtxOk (ctx : AggCtx) (ys : List Nat) : Prop where
  keys : counterKeys ctx.years0 = ys
  zero : counterSum ctx.years0 = 0
  nodup : ys.Nodup

/-- The dedup invariant of the three tables: no external paper id and no
author id occurs in more than one row. -/
def tablesNoDup (st : Tables) : Prop :=
  (∀ pid, (st.cit.filter (fun r => decide (r.entry.paperId = some pid))).length ≤ 1) ∧
  (∀ pid, (st.ref.filter (fun r => decide (r.entry.paperId = some pid))).length ≤ 1) ∧
  (∀ aid, (st.auth.filter (fun r => decide (r.author.authorId = some aid))).length ≤ 1)

/-- Concrete rows for counterexamples: two local publications of different
years, each citing a different external paper. -/
def cexEntryX : RefEntry :=
  { paperId := some "X", title := "TX", year := some 2010, rest := "rx",
    authors := [{ authorId := some "AA", name := "Al" }] }

def cexEntryY : RefEntry :=
  { paperId := some "Y", title := "TY", year := none, rest := "ry",
    authors := [] }

def cexRowA : BibRow :=
  { year := 2000, scholarPaperId := some "LA", scholarAuthorsId := [.na],
    scholarCitationCount := 7, scholarCitations := [cexEntryX],
    scholarReferences := [] }

def cexRowB : BibRow :=
  { year := 2001, scholarPaperId := some "LB",
    scholarAuthorsId := [.idStr "BB"], scholarCitationCount := 3,
    scholarCitations := [cexEntryY], scholarReferences := [] }

/-- The publication record carried by a normal exit. -/
def RunExit.pubOf : RunExit → Option PubOut
  | .ok p _ => some p
  | _ => none

/-- Specification-side description of the candidate loop: the prefix of the
candidate list up to and including the first accepted candidate (the whole
list when none is accepted). -/
def triedList (env : ScholarEnv) (al : List String) :
    List (String × String × String) → List (String × String × String)
  | [] => []
  | q :: rest =>
    if (match env.search (renderCand q) with
        | .found d => acceptedDatum al rest.isEmpty d
        | _ => false) then [q]
    else q :: triedList env al rest

def cexArgs : Args := { nime := false }

def cexPub : PubIn :=
  { title := "Tea", authorNames := [("John", "Smith")], year := 2005, age := 2 }

/-- A search result satisfying both conditions of claim C1 but carrying no
`citationCount` key. -/
def cexDatumNoCount : SearchDatum :=
  { counts := none, paperId := "P1", title := "Tea",
    authors := [{ name := "John Smith", authorId := some "A1" }] }

def cexEnvNoCount : ScholarEnv :=
  { search := fun _ => .found cexDatumNoCount, lookup := fun _ => {} }

def cexDatumOk : SearchDatum :=
  { counts := some (5, 1), paperId := "P1", title := "Tea",
    authors := [{ name := "John Smith", authorId := some "A1" }] }

/-- An environment whose detail lookup always fails with a `'message'`
payload, so the detail entry is never persisted. -/
def cexEnvMsg : ScholarEnv :=
  { search := fun _ => .found cexDatumOk, lookup := fun _ => { message := true } }

/-- The cache the first `cexEnvMsg` run leaves on disk: the composite key
only, no detail entry. -/
def cexCacheP : Cache :=
  [(fullQueryOf cexPub cexArgs, .queryRes cexDatumOk)]

/-- An environment in which every search comes back without usable data, so
every candidate is rejected and resolution is exhausted. -/
def cexEnvEmpty : ScholarEnv :=
  { search := fun _ => .empty, lookup := fun _ => {} }

/-- The candidate set exactly as claim C7 describes it, built from the
publication's own surnames (without the NIME `'Now'` correction). -/
def specCandidatesC7 (pub : PubIn) : List (String × String × String) :=
  pyProduct
    (pyDedup [unidecodeStr pub.title, regextitleSub (unidecodeStr pub.title),
      String.intercalate " "
        ((pySplit (unidecodeStr pub.title)).filter (fun w => 1 < w.length))])
    (if 1 < (authorLastRaw pub).length
     then [String.intercalate " " (authorLastRaw pub), (authorLastRaw pub).headD "", ""]
     else [(authorLastRaw pub).headD "", ""])
    ["", toString pub.year]

def cexPubNow : PubIn :=
  { title := "Now", authorNames := [("Garth", "Paine")], year := 2001, age := 3 }

def cexArgsNime : Args := { nime := true }

instance : DecidableEq (Except Unit PubOut) := fun a b =>
  match a, b with
  | .error x, .error y => isTrue (by cases x; cases y; rfl)
  | .ok x, .ok y =>
    if h : x = y then isTrue (by rw [h]) else isFalse (fun hc => h (by injection hc))
  | .error _, .ok _ => isFalse (fun hc => Except.noConfusion hc)
  | .ok _, .error _ => isFalse (fun hc => Except.noConfusion hc)

/-- An environment whose detail payload carries `publicationTypes` but no
`publicationVenue` key. -/
def cexEnvTypesOnly : ScholarEnv :=
  { search := fun _ => .found cexDatumOk,
    lookup := fun _ => { publicationTypes := some ["Conference"] } }

/-- An environment whose detail payload carries a `publicationVenue` but no
`publicationTypes` key. -/
def cexEnvVenueOnly : ScholarEnv :=
  { search := fun _ => .found cexDatumOk,
    lookup := fun _ => { publicationVenue := some "V" } }

/-! ## Generic lemmas about first-match lookup and update -/

theorem find?_append_of_none {α : Type} {p : α → Bool} {l₁ l₂ : List α}
    (h : l₁.find? p = none) : (l₁ ++ l₂).find? p = l₂.find? p := by
  induction l₁ with
  | nil => simp
  | cons a t ih =>
    by_cases hp : p a
    · simp [List.find?_cons_of_pos _ hp] at h
    · simp only [List.find?_cons_of_neg _ hp] at h
      simpa [List.find?_cons_of_neg _ hp] using ih h

theorem find?_updateFirst_self {α : Type} {p : α → Bool} {f : α → α}
    (hf : ∀ a, p (f a) = p a) (l : List α) :
    (updateFirst p f l).find? p = (l.find? p).map f := by
  induction l with
  | nil => simp [updateFirst]
  | cons a t ih =>
    by_cases hp : p a
    · have hfa : p (f a) = true := by rw [hf]; exact hp
      simp [updateFirst, hp, List.find?_cons_of_pos _ hp, List.find?_cons_of_pos _ hfa]
    · simp [updateFirst, hp, List.find?_cons_of_neg _ (by simpa using hp), ih]

theorem find?_updateFirst_other {α : Type} {p q : α → Bool} {f : α → α}
    (hq : ∀ a, p a = true → q a = false) (hqf : ∀ a, q (f a) = q a) (l : List α) :
    (updateFirst p f l).find? q = l.find? q := by
  induction l with
  | nil => simp [updateFirst]
  | cons a t ih =>
    by_cases hp : p a
    · have h1 : q a = false := hq a hp
      have h2 : q (f a) = false := by rw [hqf]; exact h1
      simp [updateFirst, hp, List.find?_cons, h1, h2]
    · by_cases hqa : q a
      · simp [updateFirst, hp, List.find?_cons, hqa]
      · simp [updateFirst, hp, List.find?_cons, hqa, ih]

theorem find?_upsert_self {α : Type} {p : α → Bool} {f : α → α} {new : α}
    (hf : ∀ a, p (f a) = p a) (hnew : p new = true) (t : List α) :
    (upsert p f new t).find? p = some ((t.find? p).elim new f) := by
  unfold upsert
  cases h : t.find? p with
  | some r =>
    simp only [h, Option.isSome_some, if_pos]
    rw [find?_updateFirst_self hf, h]
    rfl
  | none =>
    simp only [h, Option.isSome_none, Bool.false_eq_true, if_false]
    rw [find?_append_of_none h]
    simp [List.find?_cons_of_pos _ hnew]

theorem find?_upsert_other {α : Type} {p q : α → Bool} {f : α → α} {new : α}
    (hq : ∀ a, p a = true → q a = false) (hqf : ∀ a, q (f a) = q a)
    (hnew : q new = false) (t : List α) :
    (upsert p f new t).find? q = t.find? q := by
  unfold upsert
  cases h : t.find? p with
  | some r =>
    simp only [h, Option.isSome_some, if_pos]
    exact find?_updateFirst_other hq hqf t
  | none =>
    simp only [h, Option.isSome_none, Bool.false_eq_true, if_false]
    cases hq2 : t.find? q with
    | some r => exact (List.find?_append).trans (by simp [hq2])
    | none =>
      rw [find?_append_of_none hq2]
      simp [List.find?_cons, hnew]

theorem updateFirst_forall {α : Type} {p : α → Bool} {f : α → α}
    {I : α → Prop} : ∀ {t : List α}, (∀ a ∈ t, I a) → (∀ a, I a → I (f a)) →
    ∀ a ∈ updateFirst p f t, I a := by
  intro t
  induction t with
  | nil => simp [updateFirst]
  | cons a t ih =>
    intro h hf b hb
    simp only [updateFirst] at hb
    split at hb
    · rcases List.mem_cons.mp hb with hb | hb
      · exact hb ▸ hf a (h a (by simp))
      · exact h b (List.mem_cons_of_mem _ hb)
    · rcases List.mem_cons.mp hb with hb | hb
      · exact hb ▸ h a (by simp)
      · exact ih (fun x hx => h x (List.mem_cons_of_mem _ hx)) hf b hb

theorem upsert_forall {α : Type} {p : α → Bool} {f : α → α} {new : α}
    {I : α → Prop} {t : List α} (h : ∀ a ∈ t, I a)
    (hf : ∀ a, I a → I (f a)) (hnew : I new) :
    ∀ a ∈ upsert p f new t, I a := by
  unfold upsert
  split
  · exact updateFirst_forall h hf
  · intro a ha
    rcases List.mem_append.mp ha with ha | ha
    · exact h a ha
    · rw [List.mem_singleton.mp ha]; exact hnew

/-- Generic fold lemma: a `Nat`-valued reader whose per-step delta is `D`,
under a preserved invariant `I` and a per-step side condition `V`. -/
theorem foldl_delta {σ α : Type} (step : σ → α → σ) (R : σ → Nat) (D : α → Nat)
    (I : σ → Prop) (V : α → Prop)
    (hI : ∀ st a, I st → V a → I (step st a))
    (hs : ∀ st a, I st → V a → R (step st a) = R st + D a) :
    ∀ (l : List α) (st : σ), I st → (∀ a ∈ l, V a) →
      R (l.foldl step st) = R st + (l.map D).sum := by
  intro l
  induction l with
  | nil => intro st _ _; simp
  | cons a t ih =>
    intro st hI0 hV
    have hVa : V a := hV a (by simp)
    rw [List.foldl_cons, ih (step st a) (hI st a hI0 hVa)
      (fun x hx => hV x (List.mem_cons_of_mem _ hx)),
      hs st a hI0 hVa]
    simp [Nat.add_assoc]

/-- Generic invariant-preservation fold lemma. -/
theorem foldl_inv {σ α : Type} (step : σ → α → σ) (I : σ → Prop) (V : α → Prop)
    (hI : ∀ st a, I st → V a → I (step st a)) :
    ∀ (l : List α) (st : σ), I st → (∀ a ∈ l, V a) → I (l.foldl step st) := by
  intro l
  induction l with
  | nil => intro st h _; simpa using h
  | cons a t ih =>
    intro st h hV
    exact ih (step st a) (hI st a h (hV a (by simp)))
      (fun x hx => hV x (List.mem_cons_of_mem _ hx))

/-! ## Counter lemmas -/

theorem counterKeys_bumpYear (m : YearCounter) (y : Nat) :
    counterKeys (bumpYear m y) = counterKeys m := by
  induction m with
  | nil => rfl
  | cons a t ih =>
    simp only [bumpYear, counterKeys, List.map_cons] at *
    split <;> simp_all

theorem counterKeys_zeroCounter (ys : List Nat) :
    counterKeys (zeroCounter ys) = ys := by
  induction ys with
  | nil => rfl
  | cons a t ih => simpa [zeroCounter, counterKeys] using ih

theorem counterVal_zeroCounter (ys : List Nat) (y : Nat) :
    counterVal (zeroCounter ys) y = 0 := by
  induction ys with
  | nil => rfl
  | cons a t ih =>
    by_cases h : a = y <;>
      simp_all [zeroCounter, counterVal, List.find?_cons, h]

theorem counterVal_bumpYear (m : YearCounter) (y' y : Nat) :
    counterVal (bumpYear m y') y =
      counterVal m y + (if y = y' ∧ y ∈ counterKeys m then 1 else 0) := by
  induction m with
  | nil => simp [bumpYear, counterVal, counterKeys]
  | cons a t ih =>
    obtain ⟨k, v⟩ := a
    by_cases hky : k = y
    · subst hky
      by_cases hyy : k = y'
      · subst hyy
        simp [bumpYear, counterVal, List.find?_cons, counterKeys]
      · simp [bumpYear, counterVal, List.find?_cons, counterKeys, hyy,
          Ne.symm hyy]
    · by_cases hky' : k = y'
      · subst hky'
        simp only [bumpYear, List.map_cons, if_pos rfl] at *
        have hne : (k = y) = False := by simp [hky]
        by_cases hmem : y ∈ counterKeys t <;>
          simp_all [counterVal, List.find?_cons, counterKeys, hky, Ne.symm hky]
      · simp only [bumpYear, List.map_cons, if_neg hky'] at *
        by_cases hmem : y ∈ counterKeys t <;>
          simp_all [counterVal, List.find?_cons, counterKeys, hky, Ne.symm hky]

theorem counterSum_zeroCounter (ys : List Nat) :
    counterSum (zeroCounter ys) = 0 := by
  induction ys with
  | nil => rfl
  | cons a t ih => simpa [zeroCounter, counterSum] using ih

/-- `bumpYear` adds 1 for every binding whose key is `y` (the counters built
by the fold have pairwise-distinct keys, so this is a single increment). -/
theorem counterSum_bumpYear_countP (m : YearCounter) (y : Nat) :
    counterSum (bumpYear m y) =
      counterSum m + m.countP (fun p => decide (p.1 = y)) := by
  induction m with
  | nil => rfl
  | cons a t ih =>
    obtain ⟨k, v⟩ := a
    by_cases hk : k = y <;>
      simp [bumpYear, counterSum, List.countP_cons, hk] at * <;> omega

theorem countP_key_eq_one (m : YearCounter) (y : Nat)
    (hnd : (counterKeys m).Nodup) (hy : y ∈ counterKeys m) :
    m.countP (fun p => decide (p.1 = y)) = 1 := by
  induction m with
  | nil => simp [counterKeys] at hy
  | cons a t ih =>
    obtain ⟨k, v⟩ := a
    simp only [counterKeys, List.map_cons, List.nodup_cons, List.mem_cons] at hnd hy
    by_cases hk : k = y
    · subst hk
      have h0 : t.countP (fun p => decide (p.1 = k)) = 0 := by
        rw [List.countP_eq_zero]
        intro p hp
        simp only [decide_eq_true_eq]
        intro hpk
        exact hnd.1 (List.mem_map.mpr ⟨p, hp, hpk⟩)
      simp [List.countP_cons, h0]
    · rcases hy with hy | hy
      · exact absurd hy.symm hk
      · have := ih hnd.2 hy
        simp [List.countP_cons, hk, this]

theorem counterSum_bumpYear (m : YearCounter) (y : Nat)
    (hnd : (counterKeys m).Nodup) (hy : y ∈ counterKeys m) :
    counterSum (bumpYear m y) = counterSum m + 1 := by
  rw [counterSum_bumpYear_countP, countP_key_eq_one m y hnd hy]

/-! ## Sortedness of the year axis -/

theorem mem_insertYear {z y : Nat} : ∀ {l : List Nat},
    z ∈ insertYear y l ↔ z = y ∨ z ∈ l := by
  intro l
  induction l with
  | nil => simp [insertYear]
  | cons a t ih =>
    simp only [insertYear]
    split
    · simp [or_comm, or_assoc, or_left_comm]
    · split
      · rename_i h1 h2
        subst h2
        simp only [List.mem_cons]
        constructor
        · tauto
        · rintro (rfl | h) <;> tauto
      · simp only [List.mem_cons, ih]
        tauto

theorem sorted_insertYear {y : Nat} : ∀ {l : List Nat},
    l.Sorted (· < ·) → (insertYear y l).Sorted (· < ·) := by
  intro l
  induction l with
  | nil => simp [insertYear]
  | cons a t ih =>
    intro hs
    rw [List.sorted_cons] at hs
    simp only [insertYear]
    split
    · rename_i h1
      rw [List.sorted_cons]
      refine ⟨?_, by rw [List.sorted_cons]; exact hs⟩
      intro b hb
      rcases List.mem_cons.mp hb with rfl | hb
      · exact h1
      · exact h1.trans (hs.1 b hb)
    · split
      · rw [List.sorted_cons]; exact hs
      · rename_i h1 h2
        rw [List.sorted_cons]
        refine ⟨?_, ih hs.2⟩
        intro b hb
        rcases mem_insertYear.mp hb with rfl | hb
        · omega
        · exact hs.1 b hb

theorem yearsOf_sorted (bib : List BibRow) : (yearsOf bib).Sorted (· < ·) := by
  unfold yearsOf
  generalize (bib.map (·.year)) = l
  have : ∀ (acc : List Nat), acc.Sorted (· < ·) →
      (l.foldl (fun acc y => insertYear y acc) acc).Sorted (· < ·) := by
    induction l with
    | nil => intro acc h; simpa
    | cons a t ih => intro acc h; exact ih _ (sorted_insertYear h)
  exact this [] (by simp)

theorem yearsOf_nodup (bib : List BibRow) : (yearsOf bib).Nodup :=
  (yearsOf_sorted bib).nodup

theorem mem_foldl_insertYear (z : Nat) : ∀ (l acc : List Nat),
    z ∈ acc ∨ z ∈ l → z ∈ l.foldl (fun acc y => insertYear y acc) acc := by
  intro l
  induction l with
  | nil => intro acc h; simpa using h
  | cons a t ih =>
    intro acc h
    simp only [List.foldl_cons]
    apply ih
    rcases h with h | h
    · exact Or.inl (mem_insertYear.mpr (Or.inr h))
    · rcases List.mem_cons.mp h with rfl | h
      · exact Or.inl (mem_insertYear.mpr (Or.inl rfl))
      · exact Or.inr h

theorem mem_yearsOf {bib : List BibRow} {item : BibRow} (h : item ∈ bib) :
    item.year ∈ yearsOf bib := by
  unfold yearsOf
  exact mem_foldl_insertYear _ _ [] (Or.inr (List.mem_map_of_mem _ h))

/-! ## The counter invariant (claim C5) -/

theorem ctxOf_ok (bib : List BibRow) : CtxOk (ctxOf bib) (yearsOf bib) where
  keys := counterKeys_zeroCounter _
  zero := counterSum_zeroCounter _
  nodup := yearsOf_nodup bib

theorem stepAuthCit_inv {ctx : AggCtx} {ys : List Nat} (hctx : CtxOk ctx ys)
    {y : Nat} (hy : y ∈ ys) {t : List AuthRow} (h : ∀ r ∈ t, rowInvAuth ys r)
    (a : RefAuthor) : ∀ r ∈ stepAuthCit ctx y t a, rowInvAuth ys r := by
  unfold stepAuthCit
  cases a.authorId with
  | none => exact h
  | some aid =>
    apply upsert_forall h
    · rintro r ⟨h1, h2, h3, h4⟩
      refine ⟨?_, h2, ?_, h4⟩
      · rw [counterSum_bumpYear _ y (h3 ▸ hctx.nodup) (h3 ▸ hy), h1]
      · rw [counterKeys_bumpYear, h3]
    · refine ⟨?_, hctx.zero, ?_, hctx.keys⟩
      · rw [counterSum_bumpYear _ y (hctx.keys ▸ hctx.nodup) (hctx.keys ▸ hy), hctx.zero]
      · rw [counterKeys_bumpYear, hctx.keys]

theorem stepAuthRef_inv {ctx : AggCtx} {ys : List Nat} (hctx : CtxOk ctx ys)
    {y : Nat} (hy : y ∈ ys) {t : List AuthRow} (h : ∀ r ∈ t, rowInvAuth ys r)
    (a : RefAuthor) : ∀ r ∈ stepAuthRef ctx y t a, rowInvAuth ys r := by
  unfold stepAuthRef
  cases a.authorId with
  | none => exact h
  | some aid =>
    apply upsert_forall h
    · rintro r ⟨h1, h2, h3, h4⟩
      refine ⟨h1, ?_, h3, ?_⟩
      · rw [counterSum_bumpYear _ y (h4 ▸ hctx.nodup) (h4 ▸ hy), h2]
      · rw [counterKeys_bumpYear, h4]
    · refine ⟨hctx.zero, ?_, hctx.keys, ?_⟩
      · rw [counterSum_bumpYear _ y (hctx.keys ▸ hctx.nodup) (hctx.keys ▸ hy), hctx.zero]
      · rw [counterKeys_bumpYear, hctx.keys]

theorem stepCitPaper_inv {ctx : AggCtx} {ys : List Nat} (hctx : CtxOk ctx ys)
    {y : Nat} (hy : y ∈ ys) {t : List CitRow} (h : ∀ r ∈ t, rowInvCit ys r)
    (e : RefEntry) : ∀ r ∈ stepCitPaper ctx y t e, rowInvCit ys r := by
  unfold stepCitPaper
  cases e.paperId with
  | none => exact h
  | some pid =>
    apply upsert_forall h
    · rintro r ⟨h1, h2⟩
      constructor
      · rw [counterSum_bumpYear _ y (h2 ▸ hctx.nodup) (h2 ▸ hy), h1]
      · rw [counterKeys_bumpYear, h2]
    · constructor
      · rw [counterSum_bumpYear _ y (hctx.keys ▸ hctx.nodup) (hctx.keys ▸ hy), hctx.zero]
      · rw [counterKeys_bumpYear, hctx.keys]

theorem stepRefPaper_inv {ctx : AggCtx} {ys : List Nat} (hctx : CtxOk ctx ys)
    {y cc : Nat} (hy : y ∈ ys) {t : List RefRow} (h : ∀ r ∈ t, rowInvRef ys r)
    (e : RefEntry) : ∀ r ∈ stepRefPaper ctx y cc t e, rowInvRef ys r := by
  unfold stepRefPaper
  cases e.paperId with
  | none => exact h
  | some pid =>
    apply upsert_forall h
    · rintro r ⟨h1, h2⟩
      constructor
      · rw [counterSum_bumpYear _ y (h2 ▸ hctx.nodup) (h2 ▸ hy), h1]
      · rw [counterKeys_bumpYear, h2]
    · constructor
      · rw [counterSum_bumpYear _ y (hctx.keys ▸ hctx.nodup) (hctx.keys ▸ hy), hctx.zero]
      · rw [counterKeys_bumpYear, hctx.keys]

theorem stepEntry_inv {ctx : AggCtx} {ys : List Nat} (hctx : CtxOk ctx ys)
    (st : Tables) (s : FoldEntry) (h : tablesInv ys st) (hy : s.year ∈ ys) :
    tablesInv ys (stepEntry ctx st s) := by
  obtain ⟨hc, hr, ha⟩ := h
  cases s with
  | cit y cc e =>
    refine ⟨stepCitPaper_inv hctx hy hc e, hr, ?_⟩
    have : ∀ (l : List RefAuthor) (t : List AuthRow), (∀ r ∈ t, rowInvAuth ys r) →
        ∀ r ∈ l.foldl (stepAuthCit ctx y) t, rowInvAuth ys r := by
      intro l
      induction l with
      | nil => intro t ht; simpa using ht
      | cons a u ih => intro t ht; exact ih _ (stepAuthCit_inv hctx hy ht a)
    exact this e.authors st.auth ha
  | ref y cc e =>
    refine ⟨hc, stepRefPaper_inv hctx hy hr e, ?_⟩
    have : ∀ (l : List RefAuthor) (t : List AuthRow), (∀ r ∈ t, rowInvAuth ys r) →
        ∀ r ∈ l.foldl (stepAuthRef ctx y) t, rowInvAuth ys r := by
      intro l
      induction l with
      | nil => intro t ht; simpa using ht
      | cons a u ih => intro t ht; exact ih _ (stepAuthRef_inv hctx hy ht a)
    exact this e.authors st.auth ha

theorem foldEntries_year_mem {bib : List BibRow} {s : FoldEntry}
    (h : s ∈ foldEntries bib) : s.year ∈ yearsOf bib := by
  obtain ⟨item, hitem, hs⟩ := List.mem_flatMap.mp h
  have : s.year = item.year := by
    rcases List.mem_append.mp hs with hs | hs <;>
      · obtain ⟨e, _, rfl⟩ := List.mem_map.mp hs
        rfl
  rw [this]
  exact mem_yearsOf hitem

/-! ## Per-id characterization of the fold (claims C4 and C6)

Each reader of the final tables equals the corresponding multiset-style
observation count, so the readers are invariant under permutation of
`bib_df`'s rows. -/

theorem counterVal_le_counterSum (m : YearCounter) (z : Nat) :
    counterVal m z ≤ counterSum m := by
  induction m with
  | nil => simp [counterVal, counterSum]
  | cons a t ih =>
    obtain ⟨k, v⟩ := a
    by_cases hk : k = z
    · simp only [counterVal, List.find?_cons, hk, counterSum, List.map_cons,
        List.sum_cons]
      simp
    · have h1 : counterVal ((k, v) :: t) z = counterVal t z := by
        simp [counterVal, List.find?_cons, hk]
      rw [h1]
      refine le_trans ih ?_
      simp only [counterSum, List.map_cons, List.sum_cons]
      omega

theorem counterVal_of_sum_zero {m : YearCounter} (h : counterSum m = 0)
    (z : Nat) : counterVal m z = 0 :=
  Nat.le_zero.mp (h ▸ counterVal_le_counterSum m z)

theorem sum_if_eq_length_filter {α : Type} (l : List α) (p : α → Bool) :
    (l.map (fun a => if p a then 1 else 0)).sum = (l.filter p).length := by
  induction l with
  | nil => rfl
  | cons a t ih =>
    by_cases h : p a
    · simp only [List.map_cons, List.sum_cons, List.filter_cons, h, if_pos,
        List.length_cons, ih]
      omega
    · simp [List.filter_cons, h, ih]

/-! ### First-match behaviour of the four table updates -/

theorem findCitRow_step_self (ctx : AggCtx) (y : Nat) (t : List CitRow)
    (e : RefEntry) (pid : String) (he : e.paperId = some pid) :
    findCitRow (stepCitPaper ctx y t e) pid =
      some ((findCitRow t pid).elim
        { entry := e, count := 1, countYear := bumpYear ctx.years0 y,
          inNime := ctx.bibPaperIds.contains (some pid) }
        (fun r => { r with count := r.count + 1,
                           countYear := bumpYear r.countYear y })) := by
  unfold findCitRow
  simp only [stepCitPaper, he]
  refine find?_upsert_self ?_ ?_ t
  · intro a; rfl
  · simp [he]

theorem findCitRow_step_other (ctx : AggCtx) (y : Nat) (t : List CitRow)
    (e : RefEntry) (pid : String) (he : e.paperId ≠ some pid) :
    findCitRow (stepCitPaper ctx y t e) pid = findCitRow t pid := by
  unfold findCitRow
  cases hep : e.paperId with
  | none => simp [stepCitPaper, hep]
  | some pid' =>
    simp only [stepCitPaper, hep]
    have hne : pid' ≠ pid := fun hcon => he (by rw [hep, hcon])
    refine find?_upsert_other ?_ ?_ ?_ t
    · intro a ha
      simp only [decide_eq_true_eq] at ha
      simp [ha, hne]
    · intro a; rfl
    · simp [hep, hne]

theorem findRefRow_step_self (ctx : AggCtx) (y cc : Nat) (t : List RefRow)
    (e : RefEntry) (pid : String) (he : e.paperId = some pid) :
    findRefRow (stepRefPaper ctx y cc t e) pid =
      some ((findRefRow t pid).elim
        { entry := e, count := 1, countXcit := cc,
          countYear := bumpYear ctx.years0 y,
          inNime := ctx.bibPaperIds.contains (some pid) }
        (fun r => { r with count := r.count + 1, countXcit := r.countXcit + cc,
                           countYear := bumpYear r.countYear y })) := by
  unfold findRefRow
  simp only [stepRefPaper, he]
  refine find?_upsert_self ?_ ?_ t
  · intro a; rfl
  · simp [he]

theorem findRefRow_step_other (ctx : AggCtx) (y cc : Nat) (t : List RefRow)
    (e : RefEntry) (pid : String) (he : e.paperId ≠ some pid) :
    findRefRow (stepRefPaper ctx y cc t e) pid = findRefRow t pid := by
  unfold findRefRow
  cases hep : e.paperId with
  | none => simp [stepRefPaper, hep]
  | some pid' =>
    simp only [stepRefPaper, hep]
    have hne : pid' ≠ pid := fun hcon => he (by rw [hep, hcon])
    refine find?_upsert_other ?_ ?_ ?_ t
    · intro a ha
      simp only [decide_eq_true_eq] at ha
      simp [ha, hne]
    · intro a; rfl
    · simp [hep, hne]

theorem findAuthRow_stepAuthCit_self (ctx : AggCtx) (y : Nat) (t : List AuthRow)
    (a : RefAuthor) (aid : String) (ha : a.authorId = some aid) :
    findAuthRow (stepAuthCit ctx y t a) aid =
      some ((findAuthRow t aid).elim
        { author := a, citCount := 1, citCountYear := bumpYear ctx.years0 y,
          refCount := 0, refCountYear := ctx.years0,
          inNime := ctx.nimeAuthors.contains (.idStr aid) }
        (fun r => { r with citCount := r.citCount + 1,
                           citCountYear := bumpYear r.citCountYear y })) := by
  unfold findAuthRow
  simp only [stepAuthCit, ha]
  refine find?_upsert_self ?_ ?_ t
  · intro r; rfl
  · simp [ha]

theorem findAuthRow_stepAuthCit_other (ctx : AggCtx) (y : Nat) (t : List AuthRow)
    (a : RefAuthor) (aid : String) (ha : a.authorId ≠ some aid) :
    findAuthRow (stepAuthCit ctx y t a) aid = findAuthRow t aid := by
  unfold findAuthRow
  cases hap : a.authorId with
  | none => simp [stepAuthCit, hap]
  | some aid' =>
    simp only [stepAuthCit, hap]
    have hne : aid' ≠ aid := fun hcon => ha (by rw [hap, hcon])
    refine find?_upsert_other ?_ ?_ ?_ t
    · intro r hr
      simp only [decide_eq_true_eq] at hr
      simp [hr, hne]
    · intro r; rfl
    · simp [hap, hne]

theorem findAuthRow_stepAuthRef_self (ctx : AggCtx) (y : Nat) (t : List AuthRow)
    (a : RefAuthor) (aid : String) (ha : a.authorId = some aid) :
    findAuthRow (stepAuthRef ctx y t a) aid =
      some ((findAuthRow t aid).elim
        { author := a, citCount := 0, citCountYear := ctx.years0,
          refCount := 1, refCountYear := bumpYear ctx.years0 y,
          inNime := ctx.nimeAuthors.contains (.idStr aid) }
        (fun r => { r with refCount := r.refCount + 1,
                           refCountYear := bumpYear r.refCountYear y })) := by
  unfold findAuthRow
  simp only [stepAuthRef, ha]
  refine find?_upsert_self ?_ ?_ t
  · intro r; rfl
  · simp [ha]

theorem findAuthRow_stepAuthRef_other (ctx : AggCtx) (y : Nat) (t : List AuthRow)
    (a : RefAuthor) (aid : String) (ha : a.authorId ≠ some aid) :
    findAuthRow (stepAuthRef ctx y t a) aid = findAuthRow t aid := by
  unfold findAuthRow
  cases hap : a.authorId with
  | none => simp [stepAuthRef, hap]
  | some aid' =>
    simp only [stepAuthRef, hap]
    have hne : aid' ≠ aid := fun hcon => ha (by rw [hap, hcon])
    refine find?_upsert_other ?_ ?_ ?_ t
    · intro r hr
      simp only [decide_eq_true_eq] at hr
      simp [hr, hne]
    · intro r; rfl
    · simp [hap, hne]

/-! ### Per-step reader deltas -/

theorem citCountOf_stepCitPaper (ctx : AggCtx) (y : Nat) (t : List CitRow)
    (e : RefEntry) (pid : String) :
    citCountOf (stepCitPaper ctx y t e) pid =
      citCountOf t pid + (if e.paperId = some pid then 1 else 0) := by
  by_cases he : e.paperId = some pid
  · unfold citCountOf
    rw [findCitRow_step_self ctx y t e pid he]
    cases hf : findCitRow t pid <;> simp [hf, he]
  · unfold citCountOf
    rw [findCitRow_step_other ctx y t e pid he]
    simp [he]

theorem citYearOf_stepCitPaper {ctx : AggCtx} {ys : List Nat}
    (hctx : CtxOk ctx ys) {y : Nat} (hy : y ∈ ys) {t : List CitRow}
    (hinv : ∀ r ∈ t, rowInvCit ys r) (e : RefEntry) (pid : String) (z : Nat) :
    citYearOf (stepCitPaper ctx y t e) pid z =
      citYearOf t pid z + (if e.paperId = some pid ∧ y = z then 1 else 0) := by
  by_cases he : e.paperId = some pid
  · unfold citYearOf
    rw [findCitRow_step_self ctx y t e pid he]
    cases hf : findCitRow t pid with
    | some r =>
      have hr : rowInvCit ys r := hinv r (List.mem_of_find?_eq_some hf)
      simp only [Option.elim_some, Option.map_some', Option.getD_some]
      rw [counterVal_bumpYear, hr.2]
      by_cases hz : z = y
      · subst hz; simp [hy, he]
      · have hyz : ¬y = z := fun h => hz h.symm
        simp [he, hz, hyz]
    | none =>
      simp only [Option.elim_none, Option.map_some', Option.getD_some,
        Option.map_none', Option.getD_none]
      rw [counterVal_bumpYear, hctx.keys, counterVal_of_sum_zero hctx.zero]
      by_cases hz : z = y
      · subst hz; simp [hy, he]
      · have hyz : ¬y = z := fun h => hz h.symm
        simp [he, hz, hyz]
  · unfold citYearOf
    rw [findCitRow_step_other ctx y t e pid he]
    simp [he]

theorem refCountOf_stepRefPaper (ctx : AggCtx) (y cc : Nat) (t : List RefRow)
    (e : RefEntry) (pid : String) :
    refCountOf (stepRefPaper ctx y cc t e) pid =
      refCountOf t pid + (if e.paperId = some pid then 1 else 0) := by
  by_cases he : e.paperId = some pid
  · unfold refCountOf
    rw [findRefRow_step_self ctx y cc t e pid he]
    cases hf : findRefRow t pid <;> simp [hf, he]
  · unfold refCountOf
    rw [findRefRow_step_other ctx y cc t e pid he]
    simp [he]

theorem refXcitOf_stepRefPaper (ctx : AggCtx) (y cc : Nat) (t : List RefRow)
    (e : RefEntry) (pid : String) :
    refXcitOf (stepRefPaper ctx y cc t e) pid =
      refXcitOf t pid + (if e.paperId = some pid then cc else 0) := by
  by_cases he : e.paperId = some pid
  · unfold refXcitOf
    rw [findRefRow_step_self ctx y cc t e pid he]
    cases hf : findRefRow t pid <;> simp [hf, he, Nat.add_comm]
  · unfold refXcitOf
    rw [findRefRow_step_other ctx y cc t e pid he]
    simp [he]

theorem refYearOf_stepRefPaper {ctx : AggCtx} {ys : List Nat}
    (hctx : CtxOk ctx ys) {y : Nat} (hy : y ∈ ys) (cc : Nat) {t : List RefRow}
    (hinv : ∀ r ∈ t, rowInvRef ys r) (e : RefEntry) (pid : String) (z : Nat) :
    refYearOf (stepRefPaper ctx y cc t e) pid z =
      refYearOf t pid z + (if e.paperId = some pid ∧ y = z then 1 else 0) := by
  by_cases he : e.paperId = some pid
  · unfold refYearOf
    rw [findRefRow_step_self ctx y cc t e pid he]
    cases hf : findRefRow t pid with
    | some r =>
      have hr : rowInvRef ys r := hinv r (List.mem_of_find?_eq_some hf)
      simp only [Option.elim_some, Option.map_some', Option.getD_some]
      rw [counterVal_bumpYear, hr.2]
      by_cases hz : z = y
      · subst hz; simp [hy, he]
      · have hyz : ¬y = z := fun h => hz h.symm
        simp [he, hz, hyz]
    | none =>
      simp only [Option.elim_none, Option.map_some', Option.getD_some,
        Option.map_none', Option.getD_none]
      rw [counterVal_bumpYear, hctx.keys, counterVal_of_sum_zero hctx.zero]
      by_cases hz : z = y
      · subst hz; simp [hy, he]
      · have hyz : ¬y = z := fun h => hz h.symm
        simp [he, hz, hyz]
  · unfold refYearOf
    rw [findRefRow_step_other ctx y cc t e pid he]
    simp [he]

theorem authCitCountOf_stepAuthCit (ctx : AggCtx) (y : Nat) (t : List AuthRow)
    (a : RefAuthor) (aid : String) :
    authCitCountOf (stepAuthCit ctx y t a) aid =
      authCitCountOf t aid + (if a.authorId = some aid then 1 else 0) := by
  by_cases ha : a.authorId = some aid
  · unfold authCitCountOf
    rw [findAuthRow_stepAuthCit_self ctx y t a aid ha]
    cases hf : findAuthRow t aid <;> simp [hf, ha]
  · unfold authCitCountOf
    rw [findAuthRow_stepAuthCit_other ctx y t a aid ha]
    simp [ha]

theorem authRefCountOf_stepAuthCit (ctx : AggCtx) (y : Nat) (t : List AuthRow)
    (a : RefAuthor) (aid : String) :
    authRefCountOf (stepAuthCit ctx y t a) aid = authRefCountOf t aid := by
  by_cases ha : a.authorId = some aid
  · unfold authRefCountOf
    rw [findAuthRow_stepAuthCit_self ctx y t a aid ha]
    cases hf : findAuthRow t aid <;> simp [hf]
  · unfold authRefCountOf
    rw [findAuthRow_stepAuthCit_other ctx y t a aid ha]

theorem authCitYearOf_stepAuthCit {ctx : AggCtx} {ys : List Nat}
    (hctx : CtxOk ctx ys) {y : Nat} (hy : y ∈ ys) {t : List AuthRow}
    (hinv : ∀ r ∈ t, rowInvAuth ys r) (a : RefAuthor) (aid : String) (z : Nat) :
    authCitYearOf (stepAuthCit ctx y t a) aid z =
      authCitYearOf t aid z + (if a.authorId = some aid ∧ y = z then 1 else 0) := by
  by_cases ha : a.authorId = some aid
  · unfold authCitYearOf
    rw [findAuthRow_stepAuthCit_self ctx y t a aid ha]
    cases hf : findAuthRow t aid with
    | some r =>
      have hr : rowInvAuth ys r := hinv r (List.mem_of_find?_eq_some hf)
      simp only [Option.elim_some, Option.map_some', Option.getD_some]
      rw [counterVal_bumpYear, hr.2.2.1]
      by_cases hz : z = y
      · subst hz; simp [hy, ha]
      · have hyz : ¬y = z := fun h => hz h.symm
        simp [ha, hz, hyz]
    | none =>
      simp only [Option.elim_none, Option.map_some', Option.getD_some,
        Option.map_none', Option.getD_none]
      rw [counterVal_bumpYear, hctx.keys, counterVal_of_sum_zero hctx.zero]
      by_cases hz : z = y
      · subst hz; simp [hy, ha]
      · have hyz : ¬y = z := fun h => hz h.symm
        simp [ha, hz, hyz]
  · unfold authCitYearOf
    rw [findAuthRow_stepAuthCit_other ctx y t a aid ha]
    simp [ha]

theorem authRefYearOf_stepAuthCit {ctx : AggCtx} {ys : List Nat}
    (hctx : CtxOk ctx ys) (y : Nat) {t : List AuthRow} (a : RefAuthor)
    (aid : String) (z : Nat) :
    authRefYearOf (stepAuthCit ctx y t a) aid z = authRefYearOf t aid z := by
  by_cases ha : a.authorId = some aid
  · unfold authRefYearOf
    rw [findAuthRow_stepAuthCit_self ctx y t a aid ha]
    cases hf : findAuthRow t aid with
    | some r => simp [hf]
    | none => simp [hf, counterVal_of_sum_zero hctx.zero]
  · unfold authRefYearOf
    rw [findAuthRow_stepAuthCit_other ctx y t a aid ha]

theorem authRefCountOf_stepAuthRef (ctx : AggCtx) (y : Nat) (t : List AuthRow)
    (a : RefAuthor) (aid : String) :
    authRefCountOf (stepAuthRef ctx y t a) aid =
      authRefCountOf t aid + (if a.authorId = some aid then 1 else 0) := by
  by_cases ha : a.authorId = some aid
  · unfold authRefCountOf
    rw [findAuthRow_stepAuthRef_self ctx y t a aid ha]
    cases hf : findAuthRow t aid <;> simp [hf, ha]
  · unfold authRefCountOf
    rw [findAuthRow_stepAuthRef_other ctx y t a aid ha]
    simp [ha]

theorem authCitCountOf_stepAuthRef (ctx : AggCtx) (y : Nat) (t : List AuthRow)
    (a : RefAuthor) (aid : String) :
    authCitCountOf (stepAuthRef ctx y t a) aid = authCitCountOf t aid := by
  by_cases ha : a.authorId = some aid
  · unfold authCitCountOf
    rw [findAuthRow_stepAuthRef_self ctx y t a aid ha]
    cases hf : findAuthRow t aid <;> simp [hf]
  · unfold authCitCountOf
    rw [findAuthRow_stepAuthRef_other ctx y t a aid ha]

theorem authRefYearOf_stepAuthRef {ctx : AggCtx} {ys : List Nat}
    (hctx : CtxOk ctx ys) {y : Nat} (hy : y ∈ ys) {t : List AuthRow}
    (hinv : ∀ r ∈ t, rowInvAuth ys r) (a : RefAuthor) (aid : String) (z : Nat) :
    authRefYearOf (stepAuthRef ctx y t a) aid z =
      authRefYearOf t aid z + (if a.authorId = some aid ∧ y = z then 1 else 0) := by
  by_cases ha : a.authorId = some aid
  · unfold authRefYearOf
    rw [findAuthRow_stepAuthRef_self ctx y t a aid ha]
    cases hf : findAuthRow t aid with
    | some r =>
      have hr : rowInvAuth ys r := hinv r (List.mem_of_find?_eq_some hf)
      simp only [Option.elim_some, Option.map_some', Option.getD_some]
      rw [counterVal_bumpYear, hr.2.2.2]
      by_cases hz : z = y
      · subst hz; simp [hy, ha]
      · have hyz : ¬y = z := fun h => hz h.symm
        simp [ha, hz, hyz]
    | none =>
      simp only [Option.elim_none, Option.map_some', Option.getD_some,
        Option.map_none', Option.getD_none]
      rw [counterVal_bumpYear, hctx.keys, counterVal_of_sum_zero hctx.zero]
      by_cases hz : z = y
      · subst hz; simp [hy, ha]
      · have hyz : ¬y = z := fun h => hz h.symm
        simp [ha, hz, hyz]
  · unfold authRefYearOf
    rw [findAuthRow_stepAuthRef_other ctx y t a aid ha]
    simp [ha]

theorem authCitYearOf_stepAuthRef {ctx : AggCtx} {ys : List Nat}
    (hctx : CtxOk ctx ys) (y : Nat) {t : List AuthRow} (a : RefAuthor)
    (aid : String) (z : Nat) :
    authCitYearOf (stepAuthRef ctx y t a) aid z = authCitYearOf t aid z := by
  by_cases ha : a.authorId = some aid
  · unfold authCitYearOf
    rw [findAuthRow_stepAuthRef_self ctx y t a aid ha]
    cases hf : findAuthRow t aid with
    | some r => simp [hf]
    | none => simp [hf, counterVal_of_sum_zero hctx.zero]
  · unfold authCitYearOf
    rw [findAuthRow_stepAuthRef_other ctx y t a aid ha]

/-! ### Inner author-list folds -/

theorem sum_if_eq_length_filterP {α : Type} (l : List α) (P : α → Prop)
    [DecidablePred P] :
    (l.map (fun a => if P a then 1 else 0)).sum =
      (l.filter (fun a => decide (P a))).length := by
  induction l with
  | nil => rfl
  | cons a t ih =>
    by_cases h : P a
    · simp [List.filter_cons, h, ih, Nat.add_comm]
    · simp [List.filter_cons, h, ih]

theorem authCitCountOf_foldAuthCit (ctx : AggCtx) (y : Nat)
    (l : List RefAuthor) (t : List AuthRow) (aid : String) :
    authCitCountOf (l.foldl (stepAuthCit ctx y) t) aid =
      authCitCountOf t aid +
        (l.filter (fun a => decide (a.authorId = some aid))).length := by
  rw [← sum_if_eq_length_filterP l (fun a => a.authorId = some aid)]
  exact foldl_delta (stepAuthCit ctx y) (fun t => authCitCountOf t aid)
    (fun a => if a.authorId = some aid then 1 else 0) (fun _ => True)
    (fun _ => True) (fun _ _ _ _ => trivial)
    (fun t a _ _ => authCitCountOf_stepAuthCit ctx y t a aid)
    l t trivial (fun _ _ => trivial)

theorem authRefCountOf_foldAuthRef (ctx : AggCtx) (y : Nat)
    (l : List RefAuthor) (t : List AuthRow) (aid : String) :
    authRefCountOf (l.foldl (stepAuthRef ctx y) t) aid =
      authRefCountOf t aid +
        (l.filter (fun a => decide (a.authorId = some aid))).length := by
  rw [← sum_if_eq_length_filterP l (fun a => a.authorId = some aid)]
  exact foldl_delta (stepAuthRef ctx y) (fun t => authRefCountOf t aid)
    (fun a => if a.authorId = some aid then 1 else 0) (fun _ => True)
    (fun _ => True) (fun _ _ _ _ => trivial)
    (fun t a _ _ => authRefCountOf_stepAuthRef ctx y t a aid)
    l t trivial (fun _ _ => trivial)

theorem authRefCountOf_foldAuthCit (ctx : AggCtx) (y : Nat)
    (l : List RefAuthor) (t : List AuthRow) (aid : String) :
    authRefCountOf (l.foldl (stepAuthCit ctx y) t) aid = authRefCountOf t aid := by
  induction l generalizing t with
  | nil => rfl
  | cons a u ih => rw [List.foldl_cons, ih, authRefCountOf_stepAuthCit]

theorem authCitCountOf_foldAuthRef (ctx : AggCtx) (y : Nat)
    (l : List RefAuthor) (t : List AuthRow) (aid : String) :
    authCitCountOf (l.foldl (stepAuthRef ctx y) t) aid = authCitCountOf t aid := by
  induction l generalizing t with
  | nil => rfl
  | cons a u ih => rw [List.foldl_cons, ih, authCitCountOf_stepAuthRef]

theorem authCitYearOf_foldAuthCit {ctx : AggCtx} {ys : List Nat}
    (hctx : CtxOk ctx ys) {y : Nat} (hy : y ∈ ys) (l : List RefAuthor)
    {t : List AuthRow} (hinv : ∀ r ∈ t, rowInvAuth ys r) (aid : String)
    (z : Nat) :
    authCitYearOf (l.foldl (stepAuthCit ctx y) t) aid z =
      authCitYearOf t aid z +
        (if y = z
         then (l.filter (fun a => decide (a.authorId = some aid))).length
         else 0) := by
  have h := foldl_delta (stepAuthCit ctx y) (fun t => authCitYearOf t aid z)
    (fun a => if a.authorId = some aid ∧ y = z then 1 else 0)
    (fun t => ∀ r ∈ t, rowInvAuth ys r) (fun _ => True)
    (fun t a hi _ => stepAuthCit_inv hctx hy hi a)
    (fun t a hi _ => authCitYearOf_stepAuthCit hctx hy hi a aid z)
    l t hinv (fun _ _ => trivial)
  refine h.trans ?_
  congr 1
  by_cases hz : y = z
  · simp only [hz, and_true, if_pos]
    exact sum_if_eq_length_filterP l (fun a => a.authorId = some aid)
  · simp [hz]

theorem authRefYearOf_foldAuthRef {ctx : AggCtx} {ys : List Nat}
    (hctx : CtxOk ctx ys) {y : Nat} (hy : y ∈ ys) (l : List RefAuthor)
    {t : List AuthRow} (hinv : ∀ r ∈ t, rowInvAuth ys r) (aid : String)
    (z : Nat) :
    authRefYearOf (l.foldl (stepAuthRef ctx y) t) aid z =
      authRefYearOf t aid z +
        (if y = z
         then (l.filter (fun a => decide (a.authorId = some aid))).length
         else 0) := by
  have h := foldl_delta (stepAuthRef ctx y) (fun t => authRefYearOf t aid z)
    (fun a => if a.authorId = some aid ∧ y = z then 1 else 0)
    (fun t => ∀ r ∈ t, rowInvAuth ys r) (fun _ => True)
    (fun t a hi _ => stepAuthRef_inv hctx hy hi a)
    (fun t a hi _ => authRefYearOf_stepAuthRef hctx hy hi a aid z)
    l t hinv (fun _ _ => trivial)
  refine h.trans ?_
  congr 1
  by_cases hz : y = z
  · simp only [hz, and_true, if_pos]
    exact sum_if_eq_length_filterP l (fun a => a.authorId = some aid)
  · simp [hz]

theorem authRefYearOf_foldAuthCit {ctx : AggCtx} {ys : List Nat}
    (hctx : CtxOk ctx ys) (y : Nat) (l : List RefAuthor) (t : List AuthRow)
    (aid : String) (z : Nat) :
    authRefYearOf (l.foldl (stepAuthCit ctx y) t) aid z =
      authRefYearOf t aid z := by
  induction l generalizing t with
  | nil => rfl
  | cons a u ih => rw [List.foldl_cons, ih, authRefYearOf_stepAuthCit hctx]

theorem authCitYearOf_foldAuthRef {ctx : AggCtx} {ys : List Nat}
    (hctx : CtxOk ctx ys) (y : Nat) (l : List RefAuthor) (t : List AuthRow)
    (aid : String) (z : Nat) :
    authCitYearOf (l.foldl (stepAuthRef ctx y) t) aid z =
      authCitYearOf t aid z := by
  induction l generalizing t with
  | nil => rfl
  | cons a u ih => rw [List.foldl_cons, ih, authCitYearOf_stepAuthRef hctx]

/-! ### Per-entry deltas on the three tables -/

theorem citCountOf_stepEntry (ctx : AggCtx) (st : Tables) (s : FoldEntry)
    (pid : String) :
    citCountOf (stepEntry ctx st s).cit pid =
      citCountOf st.cit pid + s.citObs pid := by
  cases s with
  | cit y cc e =>
    simpa [stepEntry, FoldEntry.citObs] using
      citCountOf_stepCitPaper ctx y st.cit e pid
  | ref y cc e => simp [stepEntry, FoldEntry.citObs]

theorem refCountOf_stepEntry (ctx : AggCtx) (st : Tables) (s : FoldEntry)
    (pid : String) :
    refCountOf (stepEntry ctx st s).ref pid =
      refCountOf st.ref pid + s.refObs pid := by
  cases s with
  | cit y cc e => simp [stepEntry, FoldEntry.refObs]
  | ref y cc e =>
    simpa [stepEntry, FoldEntry.refObs] using
      refCountOf_stepRefPaper ctx y cc st.ref e pid

theorem refXcitOf_stepEntry (ctx : AggCtx) (st : Tables) (s : FoldEntry)
    (pid : String) :
    refXcitOf (stepEntry ctx st s).ref pid =
      refXcitOf st.ref pid + s.refObsX pid := by
  cases s with
  | cit y cc e => simp [stepEntry, FoldEntry.refObsX]
  | ref y cc e =>
    simpa [stepEntry, FoldEntry.refObsX] using
      refXcitOf_stepRefPaper ctx y cc st.ref e pid

theorem citYearOf_stepEntry {ctx : AggCtx} {ys : List Nat} (hctx : CtxOk ctx ys)
    {st : Tables} (hinv : tablesInv ys st) {s : FoldEntry} (hy : s.year ∈ ys)
    (pid : String) (z : Nat) :
    citYearOf (stepEntry ctx st s).cit pid z =
      citYearOf st.cit pid z + s.citObsYear pid z := by
  cases s with
  | cit y cc e =>
    simpa [stepEntry, FoldEntry.citObsYear] using
      citYearOf_stepCitPaper hctx (by simpa [FoldEntry.year] using hy) hinv.1 e pid z
  | ref y cc e => simp [stepEntry, FoldEntry.citObsYear]

theorem refYearOf_stepEntry {ctx : AggCtx} {ys : List Nat} (hctx : CtxOk ctx ys)
    {st : Tables} (hinv : tablesInv ys st) {s : FoldEntry} (hy : s.year ∈ ys)
    (pid : String) (z : Nat) :
    refYearOf (stepEntry ctx st s).ref pid z =
      refYearOf st.ref pid z + s.refObsYear pid z := by
  cases s with
  | cit y cc e => simp [stepEntry, FoldEntry.refObsYear]
  | ref y cc e =>
    simpa [stepEntry, FoldEntry.refObsYear] using
      refYearOf_stepRefPaper hctx (by simpa [FoldEntry.year] using hy) cc hinv.2.1 e pid z

theorem authCitCountOf_stepEntry (ctx : AggCtx) (st : Tables) (s : FoldEntry)
    (aid : String) :
    authCitCountOf (stepEntry ctx st s).auth aid =
      authCitCountOf st.auth aid + s.authCitObs aid := by
  cases s with
  | cit y cc e =>
    simpa [stepEntry, FoldEntry.authCitObs] using
      authCitCountOf_foldAuthCit ctx y e.authors st.auth aid
  | ref y cc e =>
    simpa [stepEntry, FoldEntry.authCitObs] using
      authCitCountOf_foldAuthRef ctx y e.authors st.auth aid

theorem authRefCountOf_stepEntry (ctx : AggCtx) (st : Tables) (s : FoldEntry)
    (aid : String) :
    authRefCountOf (stepEntry ctx st s).auth aid =
      authRefCountOf st.auth aid + s.authRefObs aid := by
  cases s with
  | cit y cc e =>
    simpa [stepEntry, FoldEntry.authRefObs] using
      authRefCountOf_foldAuthCit ctx y e.authors st.auth aid
  | ref y cc e =>
    simpa [stepEntry, FoldEntry.authRefObs] using
      authRefCountOf_foldAuthRef ctx y e.authors st.auth aid

theorem authCitYearOf_stepEntry {ctx : AggCtx} {ys : List Nat}
    (hctx : CtxOk ctx ys) {st : Tables} (hinv : tablesInv ys st)
    {s : FoldEntry} (hy : s.year ∈ ys) (aid : String) (z : Nat) :
    authCitYearOf (stepEntry ctx st s).auth aid z =
      authCitYearOf st.auth aid z + s.authCitObsYear aid z := by
  cases s with
  | cit y cc e =>
    have h := authCitYearOf_foldAuthCit hctx (by simpa [FoldEntry.year] using hy)
      e.authors hinv.2.2 aid z
    simp only [stepEntry]
    rw [h]
    simp [FoldEntry.authCitObsYear]
  | ref y cc e =>
    simpa [stepEntry, FoldEntry.authCitObsYear] using
      authCitYearOf_foldAuthRef hctx y e.authors st.auth aid z

theorem authRefYearOf_stepEntry {ctx : AggCtx} {ys : List Nat}
    (hctx : CtxOk ctx ys) {st : Tables} (hinv : tablesInv ys st)
    {s : FoldEntry} (hy : s.year ∈ ys) (aid : String) (z : Nat) :
    authRefYearOf (stepEntry ctx st s).auth aid z =
      authRefYearOf st.auth aid z + s.authRefObsYear aid z := by
  cases s with
  | cit y cc e =>
    simpa [stepEntry, FoldEntry.authRefObsYear] using
      authRefYearOf_foldAuthCit hctx y e.authors st.auth aid z
  | ref y cc e =>
    have h := authRefYearOf_foldAuthRef hctx (by simpa [FoldEntry.year] using hy)
      e.authors hinv.2.2 aid z
    simp only [stepEntry]
    rw [h]
    simp [FoldEntry.authRefObsYear]

/-! ### Final characterizations: readers of the final tables are observation
counts over the flattened fold sequence -/

theorem tablesInv_initTables (ys : List Nat) : tablesInv ys initTables :=
  ⟨by simp [initTables], by simp [initTables], by simp [initTables]⟩

theorem citCountOf_generate (bib : List BibRow) (pid : String) :
    citCountOf (generate_cit_ref_auth_df bib).cit pid =
      ((foldEntries bib).map (FoldEntry.citObs pid)).sum := by
  unfold generate_cit_ref_auth_df
  have h := foldl_delta (stepEntry (ctxOf bib)) (fun st => citCountOf st.cit pid)
    (FoldEntry.citObs pid) (fun _ => True) (fun _ => True)
    (fun _ _ _ _ => trivial)
    (fun st s _ _ => citCountOf_stepEntry (ctxOf bib) st s pid)
    (foldEntries bib) initTables trivial (fun _ _ => trivial)
  refine h.trans ?_
  simp [initTables, citCountOf, findCitRow]

theorem refCountOf_generate (bib : List BibRow) (pid : String) :
    refCountOf (generate_cit_ref_auth_df bib).ref pid =
      ((foldEntries bib).map (FoldEntry.refObs pid)).sum := by
  unfold generate_cit_ref_auth_df
  have h := foldl_delta (stepEntry (ctxOf bib)) (fun st => refCountOf st.ref pid)
    (FoldEntry.refObs pid) (fun _ => True) (fun _ => True)
    (fun _ _ _ _ => trivial)
    (fun st s _ _ => refCountOf_stepEntry (ctxOf bib) st s pid)
    (foldEntries bib) initTables trivial (fun _ _ => trivial)
  refine h.trans ?_
  simp [initTables, refCountOf, findRefRow]

theorem refXcitOf_generate (bib : List BibRow) (pid : String) :
    refXcitOf (generate_cit_ref_auth_df bib).ref pid =
      ((foldEntries bib).map (FoldEntry.refObsX pid)).sum := by
  unfold generate_cit_ref_auth_df
  have h := foldl_delta (stepEntry (ctxOf bib)) (fun st => refXcitOf st.ref pid)
    (FoldEntry.refObsX pid) (fun _ => True) (fun _ => True)
    (fun _ _ _ _ => trivial)
    (fun st s _ _ => refXcitOf_stepEntry (ctxOf bib) st s pid)
    (foldEntries bib) initTables trivial (fun _ _ => trivial)
  refine h.trans ?_
  simp [initTables, refXcitOf, findRefRow]

theorem authCitCountOf_generate (bib : List BibRow) (aid : String) :
    authCitCountOf (generate_cit_ref_auth_df bib).auth aid =
      ((foldEntries bib).map (FoldEntry.authCitObs aid)).sum := by
  unfold generate_cit_ref_auth_df
  have h := foldl_delta (stepEntry (ctxOf bib))
    (fun st => authCitCountOf st.auth aid)
    (FoldEntry.authCitObs aid) (fun _ => True) (fun _ => True)
    (fun _ _ _ _ => trivial)
    (fun st s _ _ => authCitCountOf_stepEntry (ctxOf bib) st s aid)
    (foldEntries bib) initTables trivial (fun _ _ => trivial)
  refine h.trans ?_
  simp [initTables, authCitCountOf, findAuthRow]

theorem authRefCountOf_generate (bib : List BibRow) (aid : String) :
    authRefCountOf (generate_cit_ref_auth_df bib).auth aid =
      ((foldEntries bib).map (FoldEntry.authRefObs aid)).sum := by
  unfold generate_cit_ref_auth_df
  have h := foldl_delta (stepEntry (ctxOf bib))
    (fun st => authRefCountOf st.auth aid)
    (FoldEntry.authRefObs aid) (fun _ => True) (fun _ => True)
    (fun _ _ _ _ => trivial)
    (fun st s _ _ => authRefCountOf_stepEntry (ctxOf bib) st s aid)
    (foldEntries bib) initTables trivial (fun _ _ => trivial)
  refine h.trans ?_
  simp [initTables, authRefCountOf, findAuthRow]

theorem citYearOf_generate (bib : List BibRow) (pid : String) (z : Nat) :
    citYearOf (generate_cit_ref_auth_df bib).cit pid z =
      ((foldEntries bib).map (FoldEntry.citObsYear pid z)).sum := by
  unfold generate_cit_ref_auth_df
  have h := foldl_delta (stepEntry (ctxOf bib)) (fun st => citYearOf st.cit pid z)
    (FoldEntry.citObsYear pid z) (tablesInv (yearsOf bib))
    (fun s => s.year ∈ yearsOf bib)
    (fun st s hi hv => stepEntry_inv (ctxOf_ok bib) st s hi hv)
    (fun st s hi hv => citYearOf_stepEntry (ctxOf_ok bib) hi hv pid z)
    (foldEntries bib) initTables (tablesInv_initTables _)
    (fun s hs => foldEntries_year_mem hs)
  refine h.trans ?_
  simp [initTables, citYearOf, findCitRow]

theorem refYearOf_generate (bib : List BibRow) (pid : String) (z : Nat) :
    refYearOf (generate_cit_ref_auth_df bib).ref pid z =
      ((foldEntries bib).map (FoldEntry.refObsYear pid z)).sum := by
  unfold generate_cit_ref_auth_df
  have h := foldl_delta (stepEntry (ctxOf bib)) (fun st => refYearOf st.ref pid z)
    (FoldEntry.refObsYear pid z) (tablesInv (yearsOf bib))
    (fun s => s.year ∈ yearsOf bib)
    (fun st s hi hv => stepEntry_inv (ctxOf_ok bib) st s hi hv)
    (fun st s hi hv => refYearOf_stepEntry (ctxOf_ok bib) hi hv pid z)
    (foldEntries bib) initTables (tablesInv_initTables _)
    (fun s hs => foldEntries_year_mem hs)
  refine h.trans ?_
  simp [initTables, refYearOf, findRefRow]

theorem authCitYearOf_generate (bib : List BibRow) (aid : String) (z : Nat) :
    authCitYearOf (generate_cit_ref_auth_df bib).auth aid z =
      ((foldEntries bib).map (FoldEntry.authCitObsYear aid z)).sum := by
  unfold generate_cit_ref_auth_df
  have h := foldl_delta (stepEntry (ctxOf bib))
    (fun st => authCitYearOf st.auth aid z)
    (FoldEntry.authCitObsYear aid z) (tablesInv (yearsOf bib))
    (fun s => s.year ∈ yearsOf bib)
    (fun st s hi hv => stepEntry_inv (ctxOf_ok bib) st s hi hv)
    (fun st s hi hv => authCitYearOf_stepEntry (ctxOf_ok bib) hi hv aid z)
    (foldEntries bib) initTables (tablesInv_initTables _)
    (fun s hs => foldEntries_year_mem hs)
  refine h.trans ?_
  simp [initTables, authCitYearOf, findAuthRow]

theorem authRefYearOf_generate (bib : List BibRow) (aid : String) (z : Nat) :
    authRefYearOf (generate_cit_ref_auth_df bib).auth aid z =
      ((foldEntries bib).map (FoldEntry.authRefObsYear aid z)).sum := by
  unfold generate_cit_ref_auth_df
  have h := foldl_delta (stepEntry (ctxOf bib))
    (fun st => authRefYearOf st.auth aid z)
    (FoldEntry.authRefObsYear aid z) (tablesInv (yearsOf bib))
    (fun s => s.year ∈ yearsOf bib)
    (fun st s hi hv => stepEntry_inv (ctxOf_ok bib) st s hi hv)
    (fun st s hi hv => authRefYearOf_stepEntry (ctxOf_ok bib) hi hv aid z)
    (foldEntries bib) initTables (tablesInv_initTables _)
    (fun s hs => foldEntries_year_mem hs)
  refine h.trans ?_
  simp [initTables, authRefYearOf, findAuthRow]

/-! ### At most one row per id (dedup) -/

theorem filter_length_updateFirst {α : Type} {p q : α → Bool} {f : α → α}
    (hqf : ∀ a, q (f a) = q a) :
    ∀ t : List α, ((updateFirst p f t).filter q).length = (t.filter q).length := by
  intro t
  induction t with
  | nil => rfl
  | cons a u ih =>
    simp only [updateFirst]
    split
    · rw [List.filter_cons, List.filter_cons, hqf a]
      by_cases hq : q a <;> simp [hq]
    · rw [List.filter_cons, List.filter_cons]
      by_cases hq : q a <;> simp [hq, ih]

theorem nodupKeyed_upsert {α : Type} (key : α → Option String) (pid0 : String)
    {f : α → α} (hf : ∀ a, key (f a) = key a) {new : α}
    (hnew : key new = some pid0) (t : List α)
    (h : ∀ pid, (t.filter (fun r => decide (key r = some pid))).length ≤ 1) :
    ∀ pid, ((upsert (fun r => decide (key r = some pid0)) f new t).filter
      (fun r => decide (key r = some pid))).length ≤ 1 := by
  intro pid
  unfold upsert
  split
  · rw [filter_length_updateFirst (fun a => by simp [hf a])]
    exact h pid
  · rename_i hs
    rw [List.filter_append]
    by_cases hp : pid = pid0
    · subst hp
      have hnone : t.find? (fun r => decide (key r = some pid)) = none := by
        cases hfind : t.find? (fun r => decide (key r = some pid)) with
        | none => rfl
        | some r => rw [hfind] at hs; simp at hs
      have hnil : t.filter (fun r => decide (key r = some pid)) = [] := by
        rw [List.filter_eq_nil_iff]
        intro a ha
        simpa using List.find?_eq_none.mp hnone a ha
      simp [hnil, hnew]
    · have hone : (List.filter (fun r => decide (key r = some pid)) [new]).length = 0 := by
        have : ¬ key new = some pid := by
          rw [hnew]
          intro hcon
          exact hp (by injection hcon with h2; rw [h2])
        simp [this]
      rw [List.length_append, hone]
      simpa using h pid

theorem stepAuthCit_nodup (ctx : AggCtx) (y : Nat) {t : List AuthRow}
    (h : ∀ aid, (t.filter (fun r => decide (r.author.authorId = some aid))).length ≤ 1)
    (a : RefAuthor) :
    ∀ aid, ((stepAuthCit ctx y t a).filter
      (fun r => decide (r.author.authorId = some aid))).length ≤ 1 := by
  cases hap : a.authorId with
  | none => simpa [stepAuthCit, hap] using h
  | some aid0 =>
    intro aid
    simp only [stepAuthCit, hap]
    refine nodupKeyed_upsert (fun r => r.author.authorId) aid0 ?_ ?_ t h aid
    · intro r; rfl
    · exact hap

theorem stepAuthRef_nodup (ctx : AggCtx) (y : Nat) {t : List AuthRow}
    (h : ∀ aid, (t.filter (fun r => decide (r.author.authorId = some aid))).length ≤ 1)
    (a : RefAuthor) :
    ∀ aid, ((stepAuthRef ctx y t a).filter
      (fun r => decide (r.author.authorId = some aid))).length ≤ 1 := by
  cases hap : a.authorId with
  | none => simpa [stepAuthRef, hap] using h
  | some aid0 =>
    intro aid
    simp only [stepAuthRef, hap]
    refine nodupKeyed_upsert (fun r => r.author.authorId) aid0 ?_ ?_ t h aid
    · intro r; rfl
    · exact hap

theorem stepEntry_nodup (ctx : AggCtx) (st : Tables) (s : FoldEntry)
    (h : tablesNoDup st) : tablesNoDup (stepEntry ctx st s) := by
  obtain ⟨hc, hr, ha⟩ := h
  cases s with
  | cit y cc e =>
    have hfold : ∀ (l : List RefAuthor) (t : List AuthRow),
        (∀ aid, (t.filter (fun r => decide (r.author.authorId = some aid))).length ≤ 1) →
        ∀ aid, ((l.foldl (stepAuthCit ctx y) t).filter
          (fun r => decide (r.author.authorId = some aid))).length ≤ 1 := by
      intro l
      induction l with
      | nil => intro t ht; simpa using ht
      | cons a u ih => intro t ht; exact ih _ (stepAuthCit_nodup ctx y ht a)
    refine ⟨?_, hr, hfold e.authors st.auth ha⟩
    cases hep : e.paperId with
    | none => simpa [stepEntry, stepCitPaper, hep] using hc
    | some pid0 =>
      intro pid
      simp only [stepEntry, stepCitPaper, hep]
      refine nodupKeyed_upsert (fun r => r.entry.paperId) pid0 ?_ ?_ st.cit hc pid
      · intro r; rfl
      · exact hep
  | ref y cc e =>
    have hfold : ∀ (l : List RefAuthor) (t : List AuthRow),
        (∀ aid, (t.filter (fun r => decide (r.author.authorId = some aid))).length ≤ 1) →
        ∀ aid, ((l.foldl (stepAuthRef ctx y) t).filter
          (fun r => decide (r.author.authorId = some aid))).length ≤ 1 := by
      intro l
      induction l with
      | nil => intro t ht; simpa using ht
      | cons a u ih => intro t ht; exact ih _ (stepAuthRef_nodup ctx y ht a)
    refine ⟨hc, ?_, hfold e.authors st.auth ha⟩
    cases hep : e.paperId with
    | none => simpa [stepEntry, stepRefPaper, hep] using hr
    | some pid0 =>
      intro pid
      simp only [stepEntry, stepRefPaper, hep]
      refine nodupKeyed_upsert (fun r => r.entry.paperId) pid0 ?_ ?_ st.ref hr pid
      · intro r; rfl
      · exact hep

theorem generate_nodup (bib : List BibRow) :
    tablesNoDup (generate_cit_ref_auth_df bib) := by
  unfold generate_cit_ref_auth_df
  exact foldl_inv (stepEntry (ctxOf bib)) tablesNoDup (fun _ => True)
    (fun st s h _ => stepEntry_nodup (ctxOf bib) st s h)
    (foldEntries bib) initTables
    ⟨by simp [initTables], by simp [initTables], by simp [initTables]⟩
    (fun _ _ => trivial)

/-! ## Claim theorems for the aggregator -/

/-- Claim C4, counterexample: folding the two-row corpus in its two orders
yields tables that are *not* identical — the rows of the citing table appear
in first-encounter order, so the permuted run swaps them.  (The per-id
counts agree; see the amended theorem.) -/
theorem generate_tables_depend_on_fold_order :
    List.Perm [cexRowA, cexRowB] [cexRowB, cexRowA] ∧
    generate_cit_ref_auth_df [cexRowA, cexRowB] ≠
      generate_cit_ref_auth_df [cexRowB, cexRowA] := by
  constructor
  · decide
  · decide

/-- Claim C4 (amended): for every permutation of a fixed set of resolved
publications, `generate_cit_ref_auth_df` produces the same total count and
the same per-year bucket value for every external paper id in the citing and
referenced tables (including the impact-weighted `count x cit` column) and
for every author id in the author table.  The three tables themselves need
not be identical: rows appear in first-encounter order. -/
theorem generate_counts_order_independent (bib₁ bib₂ : List BibRow)
    (h : List.Perm bib₁ bib₂) (pid aid : String) (z : Nat) :
    citCountOf (generate_cit_ref_auth_df bib₁).cit pid =
      citCountOf (generate_cit_ref_auth_df bib₂).cit pid ∧
    citYearOf (generate_cit_ref_auth_df bib₁).cit pid z =
      citYearOf (generate_cit_ref_auth_df bib₂).cit pid z ∧
    refCountOf (generate_cit_ref_auth_df bib₁).ref pid =
      refCountOf (generate_cit_ref_auth_df bib₂).ref pid ∧
    refXcitOf (generate_cit_ref_auth_df bib₁).ref pid =
      refXcitOf (generate_cit_ref_auth_df bib₂).ref pid ∧
    refYearOf (generate_cit_ref_auth_df bib₁).ref pid z =
      refYearOf (generate_cit_ref_auth_df bib₂).ref pid z ∧
    authCitCountOf (generate_cit_ref_auth_df bib₁).auth aid =
      authCitCountOf (generate_cit_ref_auth_df bib₂).auth aid ∧
    authCitYearOf (generate_cit_ref_auth_df bib₁).auth aid z =
      authCitYearOf (generate_cit_ref_auth_df bib₂).auth aid z ∧
    authRefCountOf (generate_cit_ref_auth_df bib₁).auth aid =
      authRefCountOf (generate_cit_ref_auth_df bib₂).auth aid ∧
    authRefYearOf (generate_cit_ref_auth_df bib₁).auth aid z =
      authRefYearOf (generate_cit_ref_auth_df bib₂).auth aid z := by
  have hp : List.Perm (foldEntries bib₁) (foldEntries bib₂) :=
    h.flatMap_right entriesOfRow
  refine ⟨?_, ?_, ?_, ?_, ?_, ?_, ?_, ?_, ?_⟩
  · rw [citCountOf_generate, citCountOf_generate]
    exact (hp.map _).sum_eq
  · rw [citYearOf_generate, citYearOf_generate]
    exact (hp.map _).sum_eq
  · rw [refCountOf_generate, refCountOf_generate]
    exact (hp.map _).sum_eq
  · rw [refXcitOf_generate, refXcitOf_generate]
    exact (hp.map _).sum_eq
  · rw [refYearOf_generate, refYearOf_generate]
    exact (hp.map _).sum_eq
  · rw [authCitCountOf_generate, authCitCountOf_generate]
    exact (hp.map _).sum_eq
  · rw [authCitYearOf_generate, authCitYearOf_generate]
    exact (hp.map _).sum_eq
  · rw [authRefCountOf_generate, authRefCountOf_generate]
    exact (hp.map _).sum_eq
  · rw [authRefYearOf_generate, authRefYearOf_generate]
    exact (hp.map _).sum_eq

/-- Witness for the amended C4 theorem at a concrete two-row corpus. -/
theorem generate_counts_order_independent_witness :
    List.Perm [cexRowA, cexRowB] [cexRowB, cexRowA] ∧
    citCountOf (generate_cit_ref_auth_df [cexRowA, cexRowB]).cit "X" =
      citCountOf (generate_cit_ref_auth_df [cexRowB, cexRowA]).cit "X" :=
  ⟨by decide,
   (generate_counts_order_independent [cexRowA, cexRowB] [cexRowB, cexRowA]
      (by decide) "X" "AA" 2000).1⟩

/-- Claim C5: after every individual fold step of
`generate_cit_ref_auth_df` — the fold over any prefix of the flattened
citing/referenced entry sequence — every row of each table satisfies the
counter invariant: its per-year counts sum to its total count (for author
rows, for the cited and referenced counters separately), and every corpus
year is a key of every per-year counter.  Taking `n` at least the number of
entries gives the final tables, restated in the second conjunct. -/
theorem generate_counter_invariant (bib : List BibRow) (n : Nat) :
    tablesInv (yearsOf bib)
      (((foldEntries bib).take n).foldl (stepEntry (ctxOf bib)) initTables) ∧
    tablesInv (yearsOf bib) (generate_cit_ref_auth_df bib) := by
  have main : ∀ m, tablesInv (yearsOf bib)
      (((foldEntries bib).take m).foldl (stepEntry (ctxOf bib)) initTables) := by
    intro m
    exact foldl_inv (stepEntry (ctxOf bib)) (tablesInv (yearsOf bib))
      (fun s => s.year ∈ yearsOf bib)
      (fun st s h hv => stepEntry_inv (ctxOf_ok bib) st s h hv)
      ((foldEntries bib).take m) initTables (tablesInv_initTables _)
      (fun s hs => foldEntries_year_mem (List.mem_of_mem_take hs))
  refine ⟨main n, ?_⟩
  have h := main (foldEntries bib).length
  rw [List.take_length] at h
  exact h

/-- Claim C6: in every table produced by `generate_cit_ref_auth_df`, each
external paper id and each author id occupies at most one row; and when an
id that already has a row is observed a second time, the row's count becomes
2 with one year-bucket increment per observation (at each citing local
paper's year) and every stored field other than the counters — the copied
entry/author record and the `in NIME` flag — is exactly the one installed by
the first observation, never re-copied or duplicated. -/
theorem generate_dedup_correctness :
    (∀ (bib : List BibRow) (pid aid : String),
      ((generate_cit_ref_auth_df bib).cit.filter
        (fun r => decide (r.entry.paperId = some pid))).length ≤ 1 ∧
      ((generate_cit_ref_auth_df bib).ref.filter
        (fun r => decide (r.entry.paperId = some pid))).length ≤ 1 ∧
      ((generate_cit_ref_auth_df bib).auth.filter
        (fun r => decide (r.author.authorId = some aid))).length ≤ 1) ∧
    (∀ (ctx : AggCtx) (st : Tables) (y₁ y₂ cc₁ cc₂ : Nat) (e₁ e₂ : RefEntry)
      (pid : String), findCitRow st.cit pid = none →
      e₁.paperId = some pid → e₂.paperId = some pid →
      findCitRow (stepEntry ctx (stepEntry ctx st (.cit y₁ cc₁ e₁))
          (.cit y₂ cc₂ e₂)).cit pid =
        some { entry := e₁, count := 2,
               countYear := bumpYear (bumpYear ctx.years0 y₁) y₂,
               inNime := ctx.bibPaperIds.contains (some pid) }) ∧
    (∀ (ctx : AggCtx) (t : List AuthRow) (y₁ y₂ : Nat) (a₁ a₂ : RefAuthor)
      (aid : String), findAuthRow t aid = none →
      a₁.authorId = some aid → a₂.authorId = some aid →
      findAuthRow (stepAuthCit ctx y₂ (stepAuthCit ctx y₁ t a₁) a₂) aid =
        some { author := a₁, citCount := 2,
               citCountYear := bumpYear (bumpYear ctx.years0 y₁) y₂,
               refCount := 0, refCountYear := ctx.years0,
               inNime := ctx.nimeAuthors.contains (.idStr aid) }) := by
  refine ⟨?_, ?_, ?_⟩
  · intro bib pid aid
    obtain ⟨hc, hr, ha⟩ := generate_nodup bib
    exact ⟨hc pid, hr pid, ha aid⟩
  · intro ctx st y₁ y₂ cc₁ cc₂ e₁ e₂ pid h0 h1 h2
    have s1 : findCitRow (stepCitPaper ctx y₁ st.cit e₁) pid =
        some { entry := e₁, count := 1, countYear := bumpYear ctx.years0 y₁,
               inNime := ctx.bibPaperIds.contains (some pid) } := by
      rw [findCitRow_step_self ctx y₁ st.cit e₁ pid h1, h0]
      rfl
    show findCitRow
        (stepCitPaper ctx y₂ (stepCitPaper ctx y₁ st.cit e₁) e₂) pid = _
    rw [findCitRow_step_self ctx y₂ (stepCitPaper ctx y₁ st.cit e₁) e₂ pid h2, s1]
    rfl
  · intro ctx t y₁ y₂ a₁ a₂ aid h0 h1 h2
    have s1 : findAuthRow (stepAuthCit ctx y₁ t a₁) aid =
        some { author := a₁, citCount := 1,
               citCountYear := bumpYear ctx.years0 y₁, refCount := 0,
               refCountYear := ctx.years0,
               inNime := ctx.nimeAuthors.contains (.idStr aid) } := by
      rw [findAuthRow_stepAuthCit_self ctx y₁ t a₁ aid h1, h0]
      rfl
    rw [findAuthRow_stepAuthCit_self ctx y₂ (stepAuthCit ctx y₁ t a₁) a₂ aid h2, s1]
    rfl

/-- Witness for C6: both dedup clauses at a concrete corpus and a concrete
pair of same-id observations from two local papers of different years. -/
theorem generate_dedup_correctness_witness :
    (((generate_cit_ref_auth_df [cexRowA, cexRowB]).cit.filter
        (fun r => decide (r.entry.paperId = some "X"))).length ≤ 1) ∧
    findCitRow (stepEntry (ctxOf [cexRowA, cexRowB])
        (stepEntry (ctxOf [cexRowA, cexRowB]) initTables (.cit 2000 7 cexEntryX))
        (.cit 2001 3 cexEntryX)).cit "X" =
      some { entry := cexEntryX, count := 2,
             countYear := bumpYear (bumpYear (ctxOf [cexRowA, cexRowB]).years0 2000) 2001,
             inNime := (ctxOf [cexRowA, cexRowB]).bibPaperIds.contains (some "X") } :=
  ⟨(generate_dedup_correctness.1 [cexRowA, cexRowB] "X" "AA").1,
   generate_dedup_correctness.2.1 (ctxOf [cexRowA, cexRowB]) initTables
     2000 2001 7 3 cexEntryX cexEntryX "X" (by decide) (by decide) (by decide)⟩

/-! ## Resolver lemmas -/

theorem getKey_setKey_self (c : Cache) (k : String) (v : CacheVal) :
    getKey (setKey c k v) k = some v := by
  induction c with
  | nil => simp [setKey, getKey]
  | cons a t ih =>
    obtain ⟨k', v'⟩ := a
    by_cases hk : k' = k
    · simp [setKey, getKey, hk]
    · simp [setKey, getKey, hk, ih]

theorem getKey_setKey_ne (c : Cache) (k : String) (v : CacheVal) (k' : String)
    (h : k ≠ k') : getKey (setKey c k v) k' = getKey c k' := by
  induction c with
  | nil => simp [setKey, getKey, h]
  | cons a t ih =>
    obtain ⟨k'', v''⟩ := a
    by_cases hk : k'' = k
    · subst hk
      simp [setKey, getKey, h]
    · simp only [setKey, if_neg hk, getKey]
      by_cases hk2 : k'' = k' <;> simp [hk2, ih]

theorem finishRun_searchCalls (s l : List String) (f : CacheFile) (c : Cache)
    (pub : PubOut) (lr : Option CacheVal) :
    (finishRun s l f c pub lr).searchCalls = s := by
  unfold finishRun
  cases lr with
  | none => rfl
  | some w =>
    cases w with
    | na => rfl
    | queryRes d => rfl
    | lookupRes p => cases h : consumeLookup p pub <;> simp [h]

theorem finishRun_lookupCalls (s l : List String) (f : CacheFile) (c : Cache)
    (pub : PubOut) (lr : Option CacheVal) :
    (finishRun s l f c pub lr).lookupCalls = l := by
  unfold finishRun
  cases lr with
  | none => rfl
  | some w =>
    cases w with
    | na => rfl
    | queryRes d => rfl
    | lookupRes p => cases h : consumeLookup p pub <;> simp [h]

theorem finishRun_fileAfter (s l : List String) (f : CacheFile) (c : Cache)
    (pub : PubOut) (lr : Option CacheVal) :
    (finishRun s l f c pub lr).fileAfter = f := by
  unfold finishRun
  cases lr with
  | none => rfl
  | some w =>
    cases w with
    | na => rfl
    | queryRes d => rfl
    | lookupRes p => cases h : consumeLookup p pub <;> simp [h]

theorem runHit_no_calls (file0 : CacheFile) (c : Cache) (pub : PubOut)
    (v : CacheVal) :
    (runHit file0 c pub v).searchCalls = [] ∧
    (runHit file0 c pub v).lookupCalls = [] ∧
    (runHit file0 c pub v).fileAfter = file0 := by
  cases v with
  | na => simp [runHit]
  | lookupRes p => simp [runHit]
  | queryRes d =>
    cases hd : d.counts with
    | none => simp [runHit, hd]
    | some cc =>
      obtain ⟨c1, c2⟩ := cc
      cases hk : getKey c d.paperId with
      | none => simp [runHit, hd, hk]
      | some w =>
        simp [runHit, hd, hk, finishRun_searchCalls, finishRun_lookupCalls,
          finishRun_fileAfter]

theorem request_scholar_hit (env : ScholarEnv) (c : Cache) (pubIn : PubIn)
    (args : Args) (h : (getKey c (fullQueryOf pubIn args)).isSome = true) :
    (request_scholar env (.present c) pubIn args).searchCalls = [] ∧
    (request_scholar env (.present c) pubIn args).lookupCalls = [] ∧
    (request_scholar env (.present c) pubIn args).fileAfter = .present c := by
  obtain ⟨v, hv⟩ := Option.isSome_iff_exists.mp h
  unfold request_scholar runLoaded
  simp only [hv]
  exact runHit_no_calls _ c _ v

theorem runMiss_searchCalls (env : ScholarEnv) (c : Cache) (al : List String)
    (qs : List (String × String × String)) (fq : String) (pub : PubOut) :
    (runMiss env c al qs fq pub).searchCalls = (tryQueries env al qs).1 := by
  unfold runMiss
  cases h : (tryQueries env al qs).2 with
  | none => simp [h, finishRun_searchCalls]
  | some d =>
    simp only [h]
    cases hk : getKey (setKey c fq (.queryRes (patchDatum d))) d.paperId with
    | none =>
      simp only [hk]
      exact finishRun_searchCalls _ _ _ _ _ _
    | some w =>
      simp only [hk]
      exact finishRun_searchCalls _ _ _ _ _ _

/-- Full description of the cache state and lookup calls of an accepted
miss-path run: the patched response is stored under the original composite
key; the detail payload is fetched only when the id is not yet cached and is
persisted only when it carries no `'message'` key. -/
theorem runMiss_accepted_spec (env : ScholarEnv) (c : Cache) (al : List String)
    (qs : List (String × String × String)) (fq : String) (pub : PubOut)
    (d : SearchDatum) (h : (tryQueries env al qs).2 = some d) :
    (getKey (setKey c fq (.queryRes (patchDatum d))) d.paperId = none →
      (runMiss env c al qs fq pub).lookupCalls = [d.paperId] ∧
      (runMiss env c al qs fq pub).fileAfter =
        .present (if (env.lookup d.paperId).message
          then setKey c fq (.queryRes (patchDatum d))
          else setKey (setKey c fq (.queryRes (patchDatum d))) d.paperId
            (.lookupRes (env.lookup d.paperId)))) ∧
    (∀ w, getKey (setKey c fq (.queryRes (patchDatum d))) d.paperId = some w →
      (runMiss env c al qs fq pub).lookupCalls = [] ∧
      (runMiss env c al qs fq pub).fileAfter =
        .present (setKey c fq (.queryRes (patchDatum d)))) := by
  constructor
  · intro hk
    unfold runMiss
    simp only [h, hk]
    by_cases hm : (env.lookup d.paperId).message
    · simp [hm, finishRun_lookupCalls, finishRun_fileAfter]
    · simp [hm, finishRun_lookupCalls, finishRun_fileAfter]
  · intro w hk
    unfold runMiss
    simp only [h, hk]
    exact ⟨finishRun_lookupCalls _ _ _ _ _ _, finishRun_fileAfter _ _ _ _ _ _⟩

theorem runMiss_exhausted_spec (env : ScholarEnv) (c : Cache) (al : List String)
    (qs : List (String × String × String)) (fq : String) (pub : PubOut)
    (h : (tryQueries env al qs).2 = none) :
    (runMiss env c al qs fq pub).fileAfter = .present c ∧
    (runMiss env c al qs fq pub).exit = .ok (applyYearly pub) c := by
  unfold runMiss
  simp only [h]
  exact ⟨finishRun_fileAfter _ _ _ _ _ _, rfl⟩

theorem request_scholar_miss (env : ScholarEnv) (c : Cache) (pubIn : PubIn)
    (args : Args) (h : getKey c (fullQueryOf pubIn args) = none) :
    request_scholar env (.present c) pubIn args =
      runMiss env c (authorLastOf pubIn args) (candidatesOf pubIn args)
        (fullQueryOf pubIn args)
        { initPub pubIn with query := fullQueryOf pubIn args } := by
  unfold request_scholar runLoaded
  simp only [h]

theorem tryQueries_calls_eq_triedList (env : ScholarEnv) (al : List String) :
    ∀ qs : List (String × String × String),
      (tryQueries env al qs).1 = (triedList env al qs).map renderCand := by
  intro qs
  induction qs with
  | nil => rfl
  | cons q rest ih =>
    simp only [tryQueries, triedList]
    cases hs : env.search (renderCand q) with
    | found d =>
      by_cases ha : acceptedDatum al rest.isEmpty d
      · simp [ha]
      · simp [ha, ih]
    | failed => simp [ih]
    | withError => simp [ih]
    | empty => simp [ih]

/-! ## Claim theorems for the resolver -/

/-- Claim C1, counterexample: the first candidate's response satisfies both
conditions the claim states (author count and surname substring), yet the
resolver rejects it — because the response has no `citationCount` key and the
candidate is not the last one — and goes on to try all 4 candidates instead
of accepting the 1st. -/
theorem accept_needs_citation_count_or_last_iter :
    specAcceptC1 (authorLastOf cexPub cexArgs) cexDatumNoCount = true ∧
    acceptedDatum (authorLastOf cexPub cexArgs) false cexDatumNoCount = false ∧
    (request_scholar cexEnvNoCount (.present []) cexPub cexArgs).searchCalls.length = 4 := by
  refine ⟨by decide, by decide, by decide⟩

/-- Claim C1 (amended): a search result with a nonempty data list is accepted
iff the response carries a `citationCount` key or the candidate is the last
one, AND the number of external authors is at most the local author count
plus one, AND the normalized surname of the local first author occurs in the
normalized joined external author names. -/
theorem accepted_iff_counts_and_spec (al : List String) (li : Bool)
    (d : SearchDatum) :
    acceptedDatum al li d = ((d.counts.isSome || li) && specAcceptC1 al d) := by
  unfold acceptedDatum specAcceptC1
  cases h1 : (d.counts.isSome || li) <;>
    cases h2 : decide (d.authors.length ≤ al.length + 1) <;>
      simp [h1, h2]

/-- Claim C2, counterexample: the first run resolves `cexPub` and primes the
cache, but (because the detail lookup failed with a `'message'` payload) only
with the composite-key entry.  The second run is a composite-key cache hit,
issues zero network calls — and then raises a `KeyError` at line 203 instead
of reusing the stored payload, so the two runs do not yield identical
results. -/
theorem primed_cache_hit_raises_key_error :
    (request_scholar cexEnvMsg (.present []) cexPub cexArgs).fileAfter =
      .present cexCacheP ∧
    (getKey cexCacheP (fullQueryOf cexPub cexArgs)).isSome = true ∧
    (request_scholar cexEnvMsg (.present cexCacheP) cexPub cexArgs).searchCalls = [] ∧
    (request_scholar cexEnvMsg (.present cexCacheP) cexPub cexArgs).lookupCalls = [] ∧
    (request_scholar cexEnvMsg (.present cexCacheP) cexPub cexArgs).exit = .keyError ∧
    (request_scholar cexEnvMsg (.present []) cexPub cexArgs).exit ≠
      (request_scholar cexEnvMsg (.present cexCacheP) cexPub cexArgs).exit := by
  refine ⟨by decide, by decide, by decide, by decide, by decide, by decide⟩

/-- Claim C2 (amended): when the composite query key is already present in
the loaded cache, `request_scholar` issues zero external network calls (no
search and no lookup) and leaves the cache file untouched; it reuses the
stored payload only when the stored paper id also has a detail entry — it
raises a `KeyError` when the detail entry is missing, and an
`UnboundLocalError` when the stored value is the `'N/A'` sentinel — so
idempotence holds only for runs whose detail fetch was persisted. -/
theorem cache_hit_issues_no_network_calls (env : ScholarEnv) (c : Cache)
    (pubIn : PubIn) (args : Args)
    (h : (getKey c (fullQueryOf pubIn args)).isSome = true) :
    (request_scholar env (.present c) pubIn args).searchCalls = [] ∧
    (request_scholar env (.present c) pubIn args).lookupCalls = [] := by
  exact ⟨(request_scholar_hit env c pubIn args h).1,
         (request_scholar_hit env c pubIn args h).2.1⟩

/-- Witness for the amended C2 theorem at a concrete primed cache. -/
theorem cache_hit_issues_no_network_calls_witness :
    (getKey cexCacheP (fullQueryOf cexPub cexArgs)).isSome = true ∧
    (request_scholar cexEnvMsg (.present cexCacheP) cexPub cexArgs).searchCalls = [] :=
  ⟨by decide,
   (cache_hit_issues_no_network_calls cexEnvMsg cexCacheP cexPub cexArgs (by decide)).1⟩

/-- Claim C3, counterexample: an exhausted run (all candidates rejected)
rewrites the cache file unchanged — the `scholar_cache[full_query] = 'N/A'`
line is commented out in the source — so the identity cache contains *no*
entry under the composite key afterwards; the external id is left at its
unresolved default. -/
theorem exhaustion_stores_no_sentinel :
    (request_scholar cexEnvEmpty (.present []) cexPub cexArgs).fileAfter =
      .present [] ∧
    getKey [] (fullQueryOf cexPub cexArgs) = none ∧
    ((request_scholar cexEnvEmpty (.present []) cexPub cexArgs).exit.pubOf.map
      (fun p => p.paperId)) = some none := by
  refine ⟨by decide, by decide, by decide⟩

/-- Claim C3 (amended): on a cache miss, if some candidate is accepted the
cache afterwards holds the full patched response under the key built from
the original (title, joined-surnames, year) triple — never under the
candidate variant; if all candidates are exhausted, no entry at all is
stored under that key (the sentinel write is disabled in the source) and the
publication's external id stays at its unresolved default. -/
theorem miss_path_cache_entry (env : ScholarEnv) (c : Cache) (pubIn : PubIn)
    (args : Args) (hmiss : getKey c (fullQueryOf pubIn args) = none) :
    ((tryQueries env (authorLastOf pubIn args) (candidatesOf pubIn args)).2 = none →
      (request_scholar env (.present c) pubIn args).fileAfter = .present c ∧
      ((request_scholar env (.present c) pubIn args).exit.pubOf.map
        (fun p => p.paperId)) = some none) ∧
    (∀ d, (tryQueries env (authorLastOf pubIn args) (candidatesOf pubIn args)).2 = some d →
      ∃ c', (request_scholar env (.present c) pubIn args).fileAfter = .present c' ∧
        getKey c' (fullQueryOf pubIn args) = some (.queryRes (patchDatum d))) := by
  rw [request_scholar_miss env c pubIn args hmiss]
  constructor
  · intro h
    obtain ⟨hf, he⟩ := runMiss_exhausted_spec env c (authorLastOf pubIn args)
      (candidatesOf pubIn args) (fullQueryOf pubIn args) _ h
    refine ⟨hf, ?_⟩
    rw [he]
    simp [RunExit.pubOf, applyYearly, initPub]
  · intro d h
    obtain ⟨hnone, hsome⟩ := runMiss_accepted_spec env c (authorLastOf pubIn args)
      (candidatesOf pubIn args) (fullQueryOf pubIn args) _ d h
    cases hk : getKey (setKey c (fullQueryOf pubIn args)
        (CacheVal.queryRes (patchDatum d))) d.paperId with
    | none =>
      obtain ⟨hl, hf⟩ := hnone hk
      cases hm : (env.lookup d.paperId).message with
      | true =>
        simp only [hm, if_true] at hf
        exact ⟨_, hf, getKey_setKey_self c _ _⟩
      | false =>
        simp only [hm, Bool.false_eq_true, if_false] at hf
        refine ⟨_, hf, ?_⟩
        have hne : d.paperId ≠ fullQueryOf pubIn args := by
          intro hcon
          rw [hcon] at hk
          rw [getKey_setKey_self] at hk
          exact Option.noConfusion hk
        rw [getKey_setKey_ne _ _ _ _ hne]
        exact getKey_setKey_self c _ _
    | some w =>
      obtain ⟨hl, hf⟩ := hsome w hk
      exact ⟨_, hf, getKey_setKey_self c _ _⟩

/-- Witness for the amended C3 theorem: a concrete exhausted run stores
nothing under the composite key. -/
theorem miss_path_cache_entry_witness :
    getKey [] (fullQueryOf cexPub cexArgs) = none ∧
    (request_scholar cexEnvEmpty (.present []) cexPub cexArgs).fileAfter =
      .present [] :=
  ⟨by decide,
   ((miss_path_cache_entry cexEnvEmpty [] cexPub cexArgs (by decide)).1 (by decide)).1⟩

/-- Claim C7, counterexample: with the NIME corrections enabled, the paper
titled `'Now'` has its first surname replaced by `'GarthPaine'` before the
variant axes are built (lines 94–96), so the queries actually sent are not
the Cartesian product over the publication's own surnames that the claim
describes. -/
theorem nime_correction_changes_candidates :
    (request_scholar cexEnvEmpty (.present []) cexPubNow cexArgsNime).searchCalls =
      ["Now GarthPaine ", "Now GarthPaine 2001", "Now  ", "Now  2001"] ∧
    (specCandidatesC7 cexPubNow).map renderCand =
      ["Now Paine ", "Now Paine 2001", "Now  ", "Now  2001"] ∧
    (request_scholar cexEnvEmpty (.present []) cexPubNow cexArgsNime).searchCalls ≠
      (specCandidatesC7 cexPubNow).map renderCand := by
  refine ⟨by decide, by decide, by decide⟩

/-- Claim C7 (amended): on a cache miss, the candidates tried are exactly
the prefix, up to and including the first accepted one, of the Cartesian
product of: deduplicated title variants (raw, punctuation-stripped,
single-character words removed); author variants (all surnames joined, first
surname, empty — collapsing to first surname, empty for a single author);
and year variants (empty, exact year) — in that fixed priority order, where
the surname list is the publication's except that the NIME-corrections flag
replaces the first surname with `'GarthPaine'` for the paper titled
`'Now'`. -/
theorem candidates_are_product_tried_in_order (env : ScholarEnv) (c : Cache)
    (pubIn : PubIn) (args : Args)
    (hmiss : getKey c (fullQueryOf pubIn args) = none) :
    (request_scholar env (.present c) pubIn args).searchCalls =
      (triedList env (authorLastOf pubIn args) (candidatesOf pubIn args)).map
        renderCand ∧
    candidatesOf pubIn args =
      pyProduct
        (pyDedup [unidecodeStr pubIn.title, regextitleSub (unidecodeStr pubIn.title),
          String.intercalate " "
            ((pySplit (unidecodeStr pubIn.title)).filter (fun w => 1 < w.length))])
        (if 1 < (authorLastOf pubIn args).length
         then [String.intercalate " " (authorLastOf pubIn args),
               (authorLastOf pubIn args).headD "", ""]
         else [(authorLastOf pubIn args).headD "", ""])
        ["", toString pubIn.year] := by
  constructor
  · rw [request_scholar_miss env c pubIn args hmiss, runMiss_searchCalls,
      tryQueries_calls_eq_triedList]
  · rfl

/-- Witness for the amended C7 theorem: the exhausted run above tries the
whole candidate product in order. -/
theorem candidates_are_product_tried_in_order_witness :
    getKey [] (fullQueryOf cexPubNow cexArgsNime) = none ∧
    (request_scholar cexEnvEmpty (.present []) cexPubNow cexArgsNime).searchCalls =
      (triedList cexEnvEmpty (authorLastOf cexPubNow cexArgsNime)
        (candidatesOf cexPubNow cexArgsNime)).map renderCand :=
  ⟨by decide,
   (candidates_are_product_tried_in_order cexEnvEmpty [] cexPubNow cexArgsNime
      (by decide)).1⟩

/-- Claim C8, counterexample: a present-but-unreadable cache file makes
`request_scholar` raise the JSON decode error out of the function — only
`FileNotFoundError` is caught by lines 76–81 — instead of recreating an
empty store. -/
theorem corrupt_cache_aborts_run :
    request_scholar cexEnvEmpty .corrupt cexPub cexArgs =
      { searchCalls := [], lookupCalls := [], fileAfter := .corrupt,
        exit := .jsonError } := rfl

/-- Claim C8 (amended): an absent cache file is tolerated — the run behaves
exactly as with an empty store — but a present, unreadable cache file raises
the decode error out of the function. -/
theorem absent_cache_tolerated_corrupt_raises (env : ScholarEnv)
    (pubIn : PubIn) (args : Args) :
    request_scholar env .absent pubIn args =
      request_scholar env (.present []) pubIn args ∧
    (request_scholar env .corrupt pubIn args).exit = .jsonError :=
  ⟨rfl, rfl⟩

/-- Claim C9, counterexample: a run whose accepted paper's detail lookup
returns a `'message'` payload performs the detail fetch (one lookup call)
but persists no entry for the paper id — the cache file written before
returning holds only the composite-key entry, so the fetch's result is not
on disk when the function returns. -/
theorem detail_fetch_not_persisted_on_message :
    (request_scholar cexEnvMsg (.present []) cexPub cexArgs).lookupCalls =
      ["P1"] ∧
    (request_scholar cexEnvMsg (.present []) cexPub cexArgs).fileAfter =
      .present cexCacheP ∧
    getKey cexCacheP "P1" = none := by
  refine ⟨by decide, by decide, by decide⟩

/-- Claim C9 (amended): on a cache miss with an accepted candidate, the
cache file written before the function returns holds the resolution entry
under the composite key, and — when a detail lookup was performed because
the paper id was not yet cached — the detail entry exactly when the fetched
payload has no `'message'` key; on the composite-key cache-hit path no disk
write happens at all (and no detail lookup is ever triggered: with the
detail entry missing the function raises a `KeyError` at line 203 first). -/
theorem write_through_on_miss_only (env : ScholarEnv) (c : Cache)
    (pubIn : PubIn) (args : Args) :
    (getKey c (fullQueryOf pubIn args) = none →
      ∀ d, (tryQueries env (authorLastOf pubIn args) (candidatesOf pubIn args)).2 = some d →
      getKey (setKey c (fullQueryOf pubIn args) (CacheVal.queryRes (patchDatum d)))
          d.paperId = none →
      (request_scholar env (.present c) pubIn args).lookupCalls = [d.paperId] ∧
      ∃ c', (request_scholar env (.present c) pubIn args).fileAfter = .present c' ∧
        getKey c' (fullQueryOf pubIn args) = some (.queryRes (patchDatum d)) ∧
        ((env.lookup d.paperId).message = false →
          getKey c' d.paperId = some (.lookupRes (env.lookup d.paperId))) ∧
        ((env.lookup d.paperId).message = true → getKey c' d.paperId = none)) ∧
    ((getKey c (fullQueryOf pubIn args)).isSome = true →
      (request_scholar env (.present c) pubIn args).fileAfter = .present c ∧
      (request_scholar env (.present c) pubIn args).lookupCalls = []) := by
  constructor
  · intro hmiss d h hk
    rw [request_scholar_miss env c pubIn args hmiss]
    obtain ⟨hnone, _⟩ := runMiss_accepted_spec env c (authorLastOf pubIn args)
      (candidatesOf pubIn args) (fullQueryOf pubIn args) _ d h
    obtain ⟨hl, hf⟩ := hnone hk
    have hne : d.paperId ≠ fullQueryOf pubIn args := by
      intro hcon
      rw [hcon] at hk
      rw [getKey_setKey_self] at hk
      exact Option.noConfusion hk
    refine ⟨hl, ?_⟩
    cases hm : (env.lookup d.paperId).message with
    | true =>
      simp only [hm, if_true] at hf
      refine ⟨_, hf, getKey_setKey_self c _ _, ?_, ?_⟩
      · intro hcon; exact Bool.noConfusion hcon
      · intro _; exact hk
    | false =>
      simp only [hm, Bool.false_eq_true, if_false] at hf
      refine ⟨_, hf, ?_, ?_, ?_⟩
      · rw [getKey_setKey_ne _ _ _ _ hne]
        exact getKey_setKey_self c _ _
      · intro _; exact getKey_setKey_self _ _ _
      · intro hcon; exact Bool.noConfusion hcon
  · intro hhit
    exact ⟨(request_scholar_hit env c pubIn args hhit).2.2,
           (request_scholar_hit env c pubIn args hhit).2.1⟩

/-- Witness for the amended C9 theorem: the no-`'message'` environment
persists the detail entry; the primed-cache hit writes nothing. -/
theorem write_through_on_miss_only_witness :
    (getKey cexCacheP (fullQueryOf cexPub cexArgs)).isSome = true ∧
    (request_scholar cexEnvMsg (.present cexCacheP) cexPub cexArgs).fileAfter =
      .present cexCacheP :=
  ⟨by decide,
   ((write_through_on_miss_only cexEnvMsg cexCacheP cexPub cexArgs).2 (by decide)).1⟩

/-- Claim C10: the consumption block guards the `publicationVenue`
assignment with `'publicationTypes' in lookup_result` (line 231 of
`pa_request.py`) and then reads `lookup_result['publicationVenue']`
unconditionally.  A payload carrying `publicationTypes` but no
`publicationVenue` therefore raises a `KeyError` out of `request_scholar`,
and a payload carrying a venue but no `publicationTypes` leaves the venue
field at its empty default — both contradicting the claim, whose reading of
the spec is clearly the intent of the adjacent, correctly-guarded
assignments. -/
theorem venue_assignment_guarded_by_types :
    consumeLookup { publicationTypes := some ["Conference"] }
      (initPub cexPub) = .error () ∧
    (request_scholar cexEnvTypesOnly (.present []) cexPub cexArgs).exit =
      .keyError ∧
    ((request_scholar cexEnvVenueOnly (.present []) cexPub cexArgs).exit.pubOf.map
      (fun p => p.publicationVenue)) = some none ∧
    consumeLookup {} (initPub cexPub) = .ok (initPub cexPub) := by
  refine ⟨by decide, by decide, by decide, by decide⟩

end NimePA
